import Mathlib

/-!
Verification development for the RBZ rates-scrapper pipeline.

Shallow embedding of the Python source under `src/`:
* `lib/cache.py`   — date-aware cache-key relevance (`RedisCache._is_date_relevant`);
* `lib/mongo.py`   — remote snapshot synchronizer (`MongoStorage.update_fx_rates`);
* `lib/scraper.py` — DOM extraction row loops and the run controller;
* `lib/holidays.py`, `lib/db.py` — business-day gate and local store.

Modelling conventions: Python `float` values are embedded as exact rationals
(`ℚ`); `datetime.date` as a year/month/day record; Python dictionaries as
association lists with first-occurrence lookup; fallible code returns `Option`.
-/

set_option autoImplicit false
set_option maxRecDepth 4000

/-! ### Kernel-computable rational arithmetic

The library's `Rat.add`/`Rat.mul`/`Rat.sub`/`Rat.inv` (and with them `/`)
are `@[irreducible]`, so a concrete run of the embedded programs could not
be checked by `decide`.  The wrappers below compute the same values through
`Rat.divInt`, which reduces; the `…_eq` bridge lemmas identify them with
the standard field operations, so theorem statements can use `+ * - /`. -/

/-- `a * b` through `Rat.divInt`. -/
def qMul (a b : ℚ) : ℚ := Rat.divInt (a.num * b.num) ((a.den : Int) * (b.den : Int))

/-- `a + b` through `Rat.divInt`. -/
def qAdd (a b : ℚ) : ℚ :=
  Rat.divInt (a.num * (b.den : Int) + b.num * (a.den : Int)) ((a.den : Int) * (b.den : Int))

/-- `a - b` through `Rat.divInt`. -/
def qSub (a b : ℚ) : ℚ :=
  Rat.divInt (a.num * (b.den : Int) - b.num * (a.den : Int)) ((a.den : Int) * (b.den : Int))

/-- `a / b` through `Rat.divInt` (zero on a zero divisor, like `ℚ`). -/
def qDiv (a b : ℚ) : ℚ := Rat.divInt (a.num * (b.den : Int)) ((a.den : Int) * b.num)

/-- `10 ^ n` as a rational, through the natural-number power. -/
def qPow10 (n : Nat) : ℚ := ((10 ^ n : Nat) : ℚ)

theorem qMul_eq (a b : ℚ) : qMul a b = a * b := by
  unfold qMul
  conv_rhs => rw [← Rat.num_divInt_den a, ← Rat.num_divInt_den b]
  rw [Rat.divInt_mul_divInt _ _ (by exact_mod_cast a.den_nz) (by exact_mod_cast b.den_nz)]

theorem qAdd_eq (a b : ℚ) : qAdd a b = a + b := by
  unfold qAdd
  conv_rhs => rw [← Rat.num_divInt_den a, ← Rat.num_divInt_den b]
  rw [Rat.divInt_add_divInt _ _ (by exact_mod_cast a.den_nz) (by exact_mod_cast b.den_nz)]

theorem qSub_eq (a b : ℚ) : qSub a b = a - b := by
  unfold qSub
  conv_rhs => rw [← Rat.num_divInt_den a, ← Rat.num_divInt_den b]
  rw [Rat.divInt_sub_divInt _ _ (by exact_mod_cast a.den_nz) (by exact_mod_cast b.den_nz)]

theorem qDiv_eq (a b : ℚ) : qDiv a b = a / b := (Rat.div_def' a b).symm

theorem qPow10_eq (n : Nat) : qPow10 n = (10 : ℚ) ^ n := by
  unfold qPow10
  push_cast
  rfl

namespace RatesScrapper

/-- Calendar date, the embedding of Python `datetime.date` (components as
produced by a successful `date(...)` construction, i.e. a valid Gregorian
date whenever built by the parsers below). -/
structure PyDate where
  year : Nat
  month : Nat
  day : Nat
deriving DecidableEq, Repr

/-- Gregorian leap-year test, as used by Python's `calendar`/`datetime`. -/
def isLeap (y : Nat) : Bool :=
  y % 4 == 0 && (y % 100 != 0 || y % 400 == 0)

/-- Number of days in a month of a given year. -/
def daysInMonth (y m : Nat) : Nat :=
  if m == 2 then (if isLeap y then 29 else 28)
  else if m == 4 || m == 6 || m == 9 || m == 11 then 30
  else 31

/-- Days since 1970-01-01 (civil-calendar day number), valid for years ≥ 1. -/
def daysFromCivil (y m d : Int) : Int :=
  let y' := if m ≤ 2 then y - 1 else y
  let era := y' / 400
  let yoe := y' - era * 400
  let mp := if m > 2 then m - 3 else m + 9
  let doy := (153 * mp + 2) / 5 + d - 1
  let doe := yoe * 365 + yoe / 4 - yoe / 100 + doy
  era * 146097 + doe - 719468

/-- Python `date.weekday()`: Monday = 0, …, Sunday = 6.
1970-01-01 (day number 0) was a Thursday, weekday 3. -/
def PyDate.weekday (d : PyDate) : Int :=
  (daysFromCivil d.year d.month d.day + 3) % 7

/-- Value of a decimal digit character, `none` for non-digits. -/
def digitVal? (c : Char) : Option Nat :=
  if c.isDigit then some (c.toNat - 48) else none

/-- Interpret a list of characters as a base-10 numeral; `none` if any
character is not a digit.  The empty list yields `some 0` (callers guard
non-emptiness where Python requires it). -/
def natOfDigits? (cs : List Char) : Option Nat :=
  cs.foldl (fun acc c => acc.bind (fun n => (digitVal? c).map (fun v => n * 10 + v))) (some 0)

/-- Embedding of Python `date.fromisoformat` on the documented
`YYYY-MM-DD` form: exactly ten characters, hyphens at positions 4 and 7,
all other positions digits, and the components a valid calendar date
(year ≥ 1).  Any other string raises `ValueError`, modelled as `none`. -/
def PyDate.fromIso? (s : String) : Option PyDate :=
  match s.toList with
  | [y1, y2, y3, y4, h1, m1, m2, h2, d1, d2] =>
    if h1 = '-' && h2 = '-' then
      match natOfDigits? [y1, y2, y3, y4], natOfDigits? [m1, m2], natOfDigits? [d1, d2] with
      | some y, some mo, some da =>
        if (y1.isDigit && m1.isDigit && d1.isDigit)
            && 1 ≤ y && 1 ≤ mo && mo ≤ 12 && 1 ≤ da && da ≤ daysInMonth y mo then
          some ⟨y, mo, da⟩
        else none
      | _, _, _ => none
    else none
  | _ => none

/-- Left-pad a numeral with zeros to the given width. -/
def padNum (width n : Nat) : String :=
  let s := toString n
  String.mk (List.replicate (width - s.length) '0') ++ s

/-- Embedding of Python `date.isoformat()`: `YYYY-MM-DD` with zero padding. -/
def PyDate.iso (d : PyDate) : String :=
  padNum 4 d.year ++ "-" ++ padNum 2 d.month ++ "-" ++ padNum 2 d.day

/-- Split a character list at every occurrence of a separator character;
the embedding of `str.split(sep)` for one-character separators (always
yields at least one, possibly empty, piece). -/
def splitChar (sep : Char) : List Char → List (List Char)
  | [] => [[]]
  | c :: rest =>
    match splitChar sep rest with
    | [] => [[]]
    | h :: t => if c == sep then [] :: h :: t else (c :: h) :: t

/-- Join character-list pieces with a separator (inverse of `splitChar`). -/
def joinChar (sep : Char) : List (List Char) → List Char
  | [] => []
  | [x] => x
  | x :: y :: t => x ++ sep :: joinChar sep (y :: t)

/-- ASCII whitespace, as stripped by Python's `str.strip()`/`float()`. -/
def isPySpace (c : Char) : Bool :=
  c == ' ' || c == '\t' || c == '\n' || c == '\r' || c == '\x0b' || c == '\x0c'

/-- `str.strip()` on ASCII whitespace. -/
def pyStrip (cs : List Char) : List Char :=
  ((cs.dropWhile isPySpace).reverse.dropWhile isPySpace).reverse

/-- Embedding of `datetime.strptime(raw, "%m/%d/%Y").date()` as used when
caching holiday rows: month and day of one or two digits, a four-digit year,
separated by slashes, forming a valid date. -/
def parseMMDDYYYY? (s : String) : Option PyDate :=
  match splitChar '/' s.toList with
  | [ms, ds, ys] =>
    let okLen (t : List Char) : Bool := 1 ≤ t.length && t.length ≤ 2
    if okLen ms && okLen ds && ys.length == 4 then
      match natOfDigits? ms, natOfDigits? ds, natOfDigits? ys with
      | some mo, some da, some y =>
        if (ms.all Char.isDigit && ds.all Char.isDigit && ys.all Char.isDigit)
            && 1 ≤ y && 1 ≤ mo && mo ≤ 12 && 1 ≤ da && da ≤ daysInMonth y mo then
          some ⟨y, mo, da⟩
        else none
      | _, _, _ => none
    else none
  | _ => none

/-- Strict lexicographic order on dates (year, then month, then day);
agrees with Python's `date` order on valid dates. -/
def pdLt (a b : PyDate) : Bool :=
  a.year < b.year || (a.year == b.year
    && (a.month < b.month || (a.month == b.month && a.day < b.day)))

/-- Non-strict date order. -/
def pdLe (a b : PyDate) : Bool :=
  pdLt a b || a == b

/-! ### String helpers shared by the extraction and cache embeddings -/

/-- Does `pat` occur at the start of `l`? -/
def listStartsWith : List Char → List Char → Bool
  | _, [] => true
  | [], _ :: _ => false
  | a :: as, b :: bs => a == b && listStartsWith as bs

/-- Embedding of Python's `needle in hay` substring test (case sensitive). -/
def strContains (hay needle : String) : Bool :=
  (hay.toList.tails).any (fun suf => listStartsWith suf needle.toList)

/-- `s.replace(',', '')` — drop every comma. -/
def stripCommas (s : String) : String :=
  String.mk (s.toList.filter (fun c => c != ','))

/-- `re.sub(r'[^\d.]', '', s)` — keep only decimal digits and dots. -/
def keepDigitsDots (s : String) : String :=
  String.mk (s.toList.filter (fun c => c.isDigit || c == '.'))

/-- Strict byte-wise string order (ASCII-faithful), used for the BSON
string comparison in the latest-snapshot sort. -/
def strLtB (a b : String) : Bool :=
  let rec go : List Char → List Char → Bool
    | [], [] => false
    | [], _ :: _ => true
    | _ :: _, [] => false
    | x :: xs, y :: ys => x.toNat < y.toNat || (x == y && go xs ys)
  go a.toList b.toList

/-- Split a character list into its leading run of digits and the rest. -/
def takeDigits : List Char → List Char × List Char
  | [] => ([], [])
  | c :: cs =>
    if c.isDigit then
      let (ds, rest) := takeDigits cs
      (c :: ds, rest)
    else ([], c :: cs)

/-- Digits folded to a natural number (callers pass digit-only lists). -/
def natOfDigits (cs : List Char) : Nat :=
  cs.foldl (fun n c => n * 10 + (c.toNat - 48)) 0

/-- Embedding of Python `float(s)` on finite decimal literals: optional
surrounding whitespace, an optional sign, a mantissa of digits with at most
one dot and at least one digit, and an optional `e`/`E` exponent.  The exact
decimal value is kept as a rational (the source's IEEE doubles round it;
none of the verified properties depend on that rounding).  Non-finite
literals (`inf`, `nan`) and digit-group underscores are outside the model;
every string fed to this function by the claims is a plain decimal. -/
def pyFloat? (s : String) : Option ℚ :=
  let cs := pyStrip s.toList
  let (sgn, cs) : ℚ × List Char :=
    match cs with
    | '+' :: r => (1, r)
    | '-' :: r => (-1, r)
    | r => (1, r)
  let (ip, cs) := takeDigits cs
  let (fp, cs) :=
    match cs with
    | '.' :: r => takeDigits r
    | r => ([], r)
  if ip.isEmpty && fp.isEmpty then none
  else
    let mant : ℚ := qAdd (natOfDigits ip : ℚ) (qDiv (natOfDigits fp : ℚ) (qPow10 fp.length))
    match cs with
    | [] => some (qMul sgn mant)
    | e :: r =>
      if e == 'e' || e == 'E' then
        let (esgn, r) : Bool × List Char :=
          match r with
          | '+' :: r2 => (true, r2)
          | '-' :: r2 => (false, r2)
          | r2 => (true, r2)
        let (ed, r) := takeDigits r
        if ed.isEmpty || !r.isEmpty then none
        else
          let ex : ℚ := qPow10 (natOfDigits ed)
          some (if esgn then qMul (qMul sgn mant) ex else qDiv (qMul sgn mant) ex)
      else none

/-! ### URL query parsing (`urllib.parse.urlparse` / `parse_qs`)

`urlsplit` removes the fragment (everything from the first `#`) first, then
takes the query as everything after the first `?` of the remainder; the
scheme/netloc parsing never moves either delimiter. -/

/-- The query component of a URL string. -/
def urlQuery (url : String) : String :=
  let beforeFrag := (splitChar '#' url.toList).headD []
  match splitChar '?' beforeFrag with
  | [] => ""
  | [_] => ""
  | _ :: rest => String.mk (joinChar '?' rest)

/-- Percent-decode plus `+`-to-space, the embedding of
`unquote(s.replace('+', ' '))` as applied by `parse_qsl`.  A `%` followed by
two hex digits becomes the named byte: ASCII bytes become their character,
bytes ≥ 0x80 become U+FFFD per byte (the source decodes whole UTF-8
sequences; both give non-ASCII output, which never forms a valid ISO date).
A malformed `%` sequence is kept literally, as in the source. -/
def unquotePlus (s : String) : String :=
  let hexVal? (c : Char) : Option Nat :=
    if c.isDigit then some (c.toNat - 48)
    else if 'a' ≤ c && c ≤ 'f' then some (c.toNat - 87)
    else if 'A' ≤ c && c ≤ 'F' then some (c.toNat - 55)
    else none
  let rec go : List Char → List Char
    | [] => []
    | '%' :: h1 :: h2 :: rest =>
      match hexVal? h1, hexVal? h2 with
      | some a, some b =>
        let byte := a * 16 + b
        (if byte < 128 then Char.ofNat byte else '�') :: go rest
      | _, _ => '%' :: go (h1 :: h2 :: rest)
    | c :: rest => (if c == '+' then ' ' else c) :: go rest
  String.mk (go s.toList)

/-- Embedding of `urllib.parse.parse_qsl` with default arguments: split the
query on `&`, drop empty fields, fields without `=`, and fields with an
empty value (`keep_blank_values=False`), split each remaining field at its
first `=`, and unquote name and value. -/
def parseQsl (qs : String) : List (String × String) :=
  (splitChar '&' qs.toList).filterMap (fun nv =>
    if nv.isEmpty then none
    else
      match splitChar '=' nv with
      | [] => none
      | [_] => none
      | name :: rest =>
        let value := joinChar '=' rest
        if value.isEmpty then none
        else some (unquotePlus (String.mk name), unquotePlus (String.mk value)))

/-- `k in params` for the `parse_qs` dictionary. -/
def qsHas (ps : List (String × String)) (k : String) : Bool :=
  ps.any (fun p => p.1 == k)

/-- `params[k][0]`: the first value bound to `k`, if any. -/
def qsFirst (ps : List (String × String)) (k : String) : Option String :=
  (ps.find? (fun p => p.1 == k)).map (fun p => p.2)

/-! ### `RedisCache._is_date_relevant` (src/lib/cache.py lines 69–109) -/

/-- The `day`-parameter test of the source: take the first `day` value,
parse it (`ValueError` ⇒ no match), compare with the target.  `qsFirst`
is `none` exactly when `'day' not in params`, so the source's
`if 'day' in params` guard is absorbed. -/
def dayMatch (ps : List (String × String)) (target : PyDate) : Bool :=
  match (qsFirst ps "day").bind PyDate.fromIso? with
  | some cached => cached == target
  | none => false

/-- The `from`/`to` range test of the source: both parameters present, both
first values parse, and the target lies in the inclusive range (a parse
failure of either discards both, as the `except` does). -/
def rangeMatch (ps : List (String × String)) (target : PyDate) : Bool :=
  qsHas ps "from" && qsHas ps "to"
    && (match (qsFirst ps "from").bind PyDate.fromIso?,
              (qsFirst ps "to").bind PyDate.fromIso? with
        | some f, some t => pdLe f target && pdLe target t
        | _, _ => false)

/-- Embedding of `RedisCache._is_date_relevant(url, target_date)`:
1. none of `day`/`from`/`to` in the query → relevant;
2. a matching `day` → relevant;
3. a `from`/`to` range containing the target → relevant;
otherwise `False`.  The source's outer `try` can only catch exceptions from
the URL machinery, which is total here; date `ValueError`s are already
handled inside `dayMatch`/`rangeMatch`. -/
def is_date_relevant (url : String) (target : PyDate) : Bool :=
  let params := parseQsl (urlQuery url)
  if !(qsHas params "day" || qsHas params "from" || qsHas params "to") then true
  else if dayMatch params target then true
  else rangeMatch params target

/-- Spec-side restatement of claim C4's decision rule, written from the
claim's words: relevant iff the key is undated, or the day parameter parses
and equals the target, or a full from/to pair parses and the target lies in
the inclusive range; anything else — including malformed dates — is
irrelevant. -/
def relevantSpecC4 (url : String) (target : PyDate) : Bool :=
  let ps := parseQsl (urlQuery url)
  (!qsHas ps "day" && !qsHas ps "from" && !qsHas ps "to")
    || dayMatch ps target
    || rangeMatch ps target

theorem qsHas_eq_isSome (ps : List (String × String)) (k : String) :
    qsHas ps k = (qsFirst ps k).isSome := by
  induction ps with
  | nil => rfl
  | cons p rest ih =>
    by_cases h : p.1 == k
    · simp [qsHas, qsFirst, List.find?, h]
    · simp [qsHas, qsFirst, List.find?, h] at ih ⊢
      exact ih

/-! ### `MongoStorage.update_fx_rates` (src/lib/mongo.py lines 102–226)

A BSON value of the shared `fx-rates` collection: the pipeline writes
numbers (possibly `None`) and midnight datetimes; foreign producers may
have stored strings or nulls.  A datetime is a calendar date plus a
time-of-day tick (0 = midnight, the value `date_to_midnight_iso`
produces). -/

inductive BVal where
  | null
  | num (q : ℚ)
  | str (s : String)
  | dt (d : PyDate) (tod : Nat)
deriving DecidableEq, Repr

/-- A document: association list with first-occurrence lookup (Python
dictionaries returned by PyMongo have unique keys; the operations below are
also well behaved on duplicates). -/
def PyDict := List (String × BVal)
deriving DecidableEq, Repr

/-- `doc.get(k)` — first value bound to `k`. -/
def dictGet (doc : PyDict) (k : String) : Option BVal :=
  match doc with
  | [] => none
  | (k', v) :: rest => if k' == k then some v else dictGet rest k

/-- `doc[k] = v` — replace the first binding of `k` in place, or append. -/
def dictSet (doc : PyDict) (k : String) (v : BVal) : PyDict :=
  match doc with
  | [] => [(k, v)]
  | (k', v') :: rest => if k' == k then (k, v) :: rest else (k', v') :: dictSet rest k v

/-- BSON cross-type sort rank of a `Date`-field value as used by
`find_one(sort=[("Date", DESCENDING)])`: missing/null sort lowest, then
numbers, then strings, then datetimes. -/
def bvalRank : Option BVal → Nat
  | none => 0
  | some .null => 0
  | some (.num _) => 1
  | some (.str _) => 2
  | some (.dt _ _) => 3

/-- Strict BSON order on optional `Date` values: by type rank, then within
numbers by value, strings byte-wise, datetimes chronologically. -/
def bvalLt (a b : Option BVal) : Bool :=
  bvalRank a < bvalRank b ||
    (bvalRank a == bvalRank b &&
      match a, b with
      | some (.num x), some (.num y) => x < y
      | some (.str x), some (.str y) => strLtB x y
      | some (.dt dx tx), some (.dt dy ty) => pdLt dx dy || (dx == dy && tx < ty)
      | _, _ => false)

/-- Left-to-right scan keeping the document with the maximal `Date`
(strictly greater replaces, so the first maximum is kept on ties). -/
def getLatestFrom (acc : Option PyDict) : List PyDict → Option PyDict
  | [] => acc
  | doc :: rest =>
    match acc with
    | none => getLatestFrom (some doc) rest
    | some best =>
      getLatestFrom
        (if bvalLt (dictGet best "Date") (dictGet doc "Date") then some doc else some best)
        rest

/-- Embedding of `MongoStorage._get_latest_record`: the document whose
`Date` field is maximal in the BSON order (the first such document when
several tie), or `none` for an empty collection. -/
def getLatest (coll : List PyDict) : Option PyDict :=
  getLatestFrom none coll

/-- The `latest_date_only == exchange_date` check of the source: a stored
datetime is compared by its calendar date (`.date()`); a missing `Date`, a
null, a number or a string is never equal to a Python `date`. -/
def latestDateMatches (latest : Option PyDict) (d : PyDate) : Bool :=
  match latest with
  | none => false
  | some l =>
    match dictGet l "Date" with
    | some (.dt dd _) => dd == d
    | _ => false

/-- Python `round(x, 4)` idealised over rationals: round half to even at
the fourth decimal (the source rounds an IEEE double; the claims are stated
against exact decimal arithmetic). -/
def roundHalfEven (q : ℚ) : ℤ :=
  let f := Rat.floor q
  let frac := qSub q (f : ℚ)
  if frac < Rat.divInt 1 2 then f
  else if Rat.divInt 1 2 < frac then f + 1
  else if f % 2 = 0 then f else f + 1

/-- `round(q, 4)`. -/
def pyRound4 (q : ℚ) : ℚ :=
  qDiv ((roundHalfEven (qMul q 10000) : ℤ) : ℚ) 10000

/-- Exchange-quotation dictionary as read by the synchronizer (keys
`rate_date`, `bid`, `ask`, `avg`; the mid rate travels under `avg`).
An absent key and a `None` value read identically through `.get`. -/
structure ExchangeQ where
  rate_date : Option String := none
  bid : Option ℚ := none
  ask : Option ℚ := none
  avg : Option ℚ := none
deriving DecidableEq, Repr

/-- Gold-quotation dictionary as read by the synchronizer. -/
structure GoldQ where
  rate_date : Option String := none
  usd : Option ℚ := none
  zwg : Option ℚ := none
  zar : Option ℚ := none
  gbp : Option ℚ := none
  eur : Option ℚ := none
  digital_token_usd : Option ℚ := none
  digital_token_zwg : Option ℚ := none
deriving DecidableEq, Repr

/-- `None` becomes BSON null, a number stays a number (the source stores
`exchange_rates.get(...)` verbatim). -/
def toBVal : Option ℚ → BVal
  | none => .null
  | some q => .num q

/-- The Python truthiness chain `numer and denom and denom > 0` guarding
each ratio: both present, the numerator nonzero (`0.0` is falsy), and the
denominator strictly positive (which subsumes its own truthiness). -/
def ratioGuard : Option ℚ → Option ℚ → Bool
  | some n, some d => n ≠ 0 && 0 < d
  | _, _ => false

/-- The gold section of `update_fx_rates` (source lines 176–209, including
the behaviour-free duplicated `if gold_date == exchange_date` block that
only binds locals): given the record built so far, overwrite `Gold` and
`eGold` when the gold date matches and the guards pass.  `none` models the
`ValueError` a malformed non-empty gold `rate_date` raises, which the outer
`except` turns into a failed sync with no insert. -/
def goldSection (r : PyDict) (gold_rates : Option GoldQ) (exchange_date : PyDate) :
    Option PyDict :=
  match gold_rates with
  | none => some r
  | some g =>
    match g.rate_date with
    | none => some r
    | some s =>
      if s == "" then some r
      else
        match PyDate.fromIso? s with
        | none => none
        | some gold_date =>
          if gold_date == exchange_date then
            let r1 :=
              if ratioGuard g.zwg g.usd then
                dictSet r "Gold" (.num (pyRound4 (qDiv (g.zwg.getD 0) (g.usd.getD 0))))
              else r
            let r2 :=
              if ratioGuard g.digital_token_zwg g.digital_token_usd then
                dictSet r1 "eGold"
                  (.num (pyRound4 (qDiv (g.digital_token_zwg.getD 0) (g.digital_token_usd.getD 0))))
              else r1
            some r2
          else some r

/-- The carry-forward base of a new record: a field-for-field copy of the
latest document minus its identity field, or empty when the collection is. -/
def baseRecord (latest : Option PyDict) : PyDict :=
  match latest with
  | some l => l.filter (fun kv => kv.1 != "_id")
  | none => []

/-- The record after the unconditional overwrites of source lines 166–171:
`Date` to the midnight datetime of the exchange date, and the three ZiG
fields to the quotation's bid/ask/avg (the mid rate). -/
def zigRecord (latest : Option PyDict) (ex : ExchangeQ) (exchange_date : PyDate) : PyDict :=
  dictSet
    (dictSet
      (dictSet
        (dictSet (baseRecord latest) "Date" (.dt exchange_date 0))
        "ZiG_Bid" (toBVal ex.bid))
      "ZiG_Ask" (toBVal ex.ask))
    "ZiG_Mid" (toBVal ex.avg)

/-- Embedding of `MongoStorage.update_fx_rates` after a successful
connection, as a function of the collection state: returns the new
collection and the boolean result.  `False` covers the no-exchange guard,
a missing/empty/malformed `rate_date`, the idempotent skip, and the gold
`ValueError`; `True` is returned exactly when a new record is appended
(remote write faults are outside the pure model). -/
def update_fx_rates (coll : List PyDict) (exchange_rates : Option ExchangeQ)
    (gold_rates : Option GoldQ) : List PyDict × Bool :=
  match exchange_rates with
  | none => (coll, false)
  | some ex =>
    match ex.rate_date with
    | none => (coll, false)
    | some ds =>
      if ds == "" then (coll, false)
      else
        match PyDate.fromIso? ds with
        | none => (coll, false)
        | some exchange_date =>
          let latest := getLatest coll
          if latestDateMatches latest exchange_date then (coll, false)
          else
            match goldSection (zigRecord latest ex exchange_date) gold_rates exchange_date with
            | none => (coll, false)
            | some newRecord => (coll ++ [newRecord], true)

/-- Does the gold section avoid the `ValueError` abort (absent quotation,
absent or empty date, or a well-formed date)? -/
def goldDateOk (gold_rates : Option GoldQ) : Bool :=
  match gold_rates with
  | none => true
  | some g =>
    match g.rate_date with
    | none => true
    | some s => s == "" || (PyDate.fromIso? s).isSome

end RatesScrapper

/-- C4.  For every cache-key URL and target date, `_is_date_relevant`
returns `True` exactly when the query carries none of `day`/`from`/`to`,
or the (first) `day` value parses and equals the target, or both `from` and
`to` parse and the target lies in the inclusive range; malformed date
parameters never match, and the function is total (never throws). -/
theorem claim_C4_invalidator_relevance (url : String) (target : RatesScrapper.PyDate) :
    RatesScrapper.is_date_relevant url target = RatesScrapper.relevantSpecC4 url target := by
  unfold RatesScrapper.is_date_relevant RatesScrapper.relevantSpecC4
  cases hday : RatesScrapper.qsHas (RatesScrapper.parseQsl (RatesScrapper.urlQuery url)) "day" <;>
  cases hfrom : RatesScrapper.qsHas (RatesScrapper.parseQsl (RatesScrapper.urlQuery url)) "from" <;>
  cases hto : RatesScrapper.qsHas (RatesScrapper.parseQsl (RatesScrapper.urlQuery url)) "to" <;>
  cases hdm : RatesScrapper.dayMatch (RatesScrapper.parseQsl (RatesScrapper.urlQuery url)) target <;>
  simp_all [RatesScrapper.dayMatch, RatesScrapper.rangeMatch,
    RatesScrapper.qsHas_eq_isSome]

/-- C10.  Implicit invalidator edge cases: the presence of any of
`day`/`from`/`to` disables the undated-key rule; a key carrying `from`
without `to` (or `to` without `from`) and no matching `day` is never
relevant; and a key carrying a `day` plus a full `from`/`to` pair is
relevant exactly when the day matches or the target lies in the range. -/
theorem claim_C10_invalidator_edge_cases (url : String) (target : RatesScrapper.PyDate) :
    (RatesScrapper.qsHas (RatesScrapper.parseQsl (RatesScrapper.urlQuery url)) "from" = true →
      RatesScrapper.qsHas (RatesScrapper.parseQsl (RatesScrapper.urlQuery url)) "to" = false →
      RatesScrapper.dayMatch (RatesScrapper.parseQsl (RatesScrapper.urlQuery url)) target = false →
      RatesScrapper.is_date_relevant url target = false) ∧
    (RatesScrapper.qsHas (RatesScrapper.parseQsl (RatesScrapper.urlQuery url)) "to" = true →
      RatesScrapper.qsHas (RatesScrapper.parseQsl (RatesScrapper.urlQuery url)) "from" = false →
      RatesScrapper.dayMatch (RatesScrapper.parseQsl (RatesScrapper.urlQuery url)) target = false →
      RatesScrapper.is_date_relevant url target = false) ∧
    (RatesScrapper.qsHas (RatesScrapper.parseQsl (RatesScrapper.urlQuery url)) "day" = true →
      RatesScrapper.qsHas (RatesScrapper.parseQsl (RatesScrapper.urlQuery url)) "from" = true →
      RatesScrapper.qsHas (RatesScrapper.parseQsl (RatesScrapper.urlQuery url)) "to" = true →
      RatesScrapper.is_date_relevant url target =
        (RatesScrapper.dayMatch (RatesScrapper.parseQsl (RatesScrapper.urlQuery url)) target
          || RatesScrapper.rangeMatch (RatesScrapper.parseQsl (RatesScrapper.urlQuery url)) target)) := by
  refine ⟨?_, ?_, ?_⟩ <;> intro h1 h2 h3 <;>
    unfold RatesScrapper.is_date_relevant <;>
    simp_all [RatesScrapper.rangeMatch]

/-- Witness for C10: a key with only `from` is irrelevant to every date;
a key with both a `day` and a full range is relevant through either test. -/
theorem claim_C10_witness :
    (RatesScrapper.is_date_relevant
        "https://api.example/api/rates/fx-rates?from=2025-12-01" ⟨2025, 12, 15⟩ = false) ∧
    (RatesScrapper.is_date_relevant
        "https://api.example/api/rates/fx-rates?day=2025-11-01&from=2025-12-01&to=2025-12-31"
        ⟨2025, 12, 15⟩ = true) :=
  ⟨(claim_C10_invalidator_edge_cases
      "https://api.example/api/rates/fx-rates?from=2025-12-01" ⟨2025, 12, 15⟩).1
      (by decide) (by decide) (by decide),
   by
    rw [(claim_C10_invalidator_edge_cases
      "https://api.example/api/rates/fx-rates?day=2025-11-01&from=2025-12-01&to=2025-12-31"
      ⟨2025, 12, 15⟩).2.2 (by decide) (by decide) (by decide)]
    decide⟩

-- spot checks against the spec's §8 matcher examples
example : RatesScrapper.is_date_relevant "x/api/rates/fx-rates?day=2025-12-29" ⟨2025, 12, 29⟩ = true := by decide
example : RatesScrapper.is_date_relevant "x/api/rates/fx-rates?day=2025-12-29" ⟨2025, 12, 30⟩ = false := by decide
example : RatesScrapper.is_date_relevant "x/api/rates/fx-rates?from=2025-12-01&to=2025-12-31" ⟨2025, 12, 10⟩ = true := by decide
example : RatesScrapper.is_date_relevant "x/api/rates/fx-rates?from=2025-12-01&to=2025-12-31" ⟨2026, 1, 2⟩ = false := by decide
example : RatesScrapper.is_date_relevant "x/api/rates/fx-rates" ⟨2031, 7, 14⟩ = true := by decide
example : RatesScrapper.is_date_relevant "x/api/rates/fx-rates?day=oops" ⟨2025, 12, 29⟩ = false := by decide

-- sanity examples (kept as anonymous checks; they compile to theorems)
example : RatesScrapper.PyDate.fromIso? "2025-12-29" = some ⟨2025, 12, 29⟩ := by decide
example : RatesScrapper.PyDate.fromIso? "2025-13-01" = none := by decide
example : RatesScrapper.PyDate.fromIso? "garbage" = none := by decide
example : RatesScrapper.PyDate.fromIso? "2025-02-29" = none := by decide
example : RatesScrapper.PyDate.fromIso? "2024-02-29" = some ⟨2024, 2, 29⟩ := by decide
example : RatesScrapper.PyDate.weekday ⟨2025, 12, 29⟩ = 0 := by decide
example : RatesScrapper.PyDate.weekday ⟨2025, 12, 27⟩ = 5 := by decide
example : RatesScrapper.PyDate.iso ⟨2025, 1, 5⟩ = "2025-01-05" := by decide

/-! ### Dictionary and latest-snapshot lemmas -/

namespace RatesScrapper

theorem dictGet_dictSet_self (k : String) (v : BVal) :
    ∀ doc : PyDict, dictGet (dictSet doc k v) k = some v := by
  intro doc
  induction doc with
  | nil => simp [dictGet, dictSet]
  | cons p rest ih =>
    obtain ⟨k1, v1⟩ := p
    by_cases h1 : (k1 == k) = true
    · simp [dictGet, dictSet, h1]
    · simp only [dictSet, h1, Bool.false_eq_true, if_false, dictGet]
      exact ih

theorem dictGet_dictSet_ne (k k' : String) (v : BVal) (h : k' ≠ k) :
    ∀ doc : PyDict, dictGet (dictSet doc k v) k' = dictGet doc k' := by
  have hk : (k == k') = false := by
    simp only [beq_eq_false_iff_ne, ne_eq]
    exact fun e => h e.symm
  intro doc
  induction doc with
  | nil => simp [dictGet, dictSet, hk]
  | cons p rest ih =>
    obtain ⟨k1, v1⟩ := p
    by_cases h1 : (k1 == k) = true
    · have hk1 : (k1 == k') = false := by
        rw [beq_iff_eq] at h1
        subst h1
        exact hk
      simp [dictGet, dictSet, h1, hk, hk1]
    · simp only [dictSet, h1, Bool.false_eq_true, if_false, dictGet]
      rw [ih]

theorem dictGet_filterNe (bad k : String) (h : k ≠ bad) :
    ∀ l : PyDict, dictGet (l.filter (fun kv => kv.1 != bad)) k = dictGet l k := by
  intro l
  induction l with
  | nil => simp [dictGet]
  | cons p rest ih =>
    obtain ⟨k1, v1⟩ := p
    by_cases h1 : (k1 == bad) = true
    · have hk1 : (k1 == k) = false := by
        rw [beq_iff_eq] at h1
        subst h1
        simp only [beq_eq_false_iff_ne, ne_eq]
        exact fun e => h e.symm
      simp only [List.filter, h1, bne, Bool.not_true, dictGet, hk1, Bool.false_eq_true, if_false]
      exact ih
    · simp only [List.filter, h1, bne, Bool.not_false, dictGet]
      by_cases h2 : (k1 == k) = true
      · simp [h2]
      · simp only [h2, Bool.false_eq_true, if_false]
        exact ih

theorem getLatestFrom_mem :
    ∀ (coll : List PyDict) (acc : Option PyDict) (l : PyDict),
      getLatestFrom acc coll = some l → acc = some l ∨ l ∈ coll := by
  intro coll
  induction coll with
  | nil => intro acc l h; exact Or.inl h
  | cons doc rest ih =>
    intro acc l h
    cases acc with
    | none =>
      rcases ih (some doc) l (by simpa [getLatestFrom] using h) with h1 | h1
      · rw [Option.some_inj] at h1
        exact Or.inr (h1 ▸ List.mem_cons_self doc rest)
      · exact Or.inr (List.mem_cons_of_mem _ h1)
    | some best =>
      have h' : getLatestFrom
          (if bvalLt (dictGet best "Date") (dictGet doc "Date") then some doc else some best)
          rest = some l := h
      by_cases hlt : bvalLt (dictGet best "Date") (dictGet doc "Date") = true
      · rw [if_pos hlt] at h'
        rcases ih _ _ h' with h1 | h1
        · rw [Option.some_inj] at h1
          exact Or.inr (h1 ▸ List.mem_cons_self doc rest)
        · exact Or.inr (List.mem_cons_of_mem _ h1)
      · rw [if_neg hlt] at h'
        rcases ih _ _ h' with h1 | h1
        · exact Or.inl h1
        · exact Or.inr (List.mem_cons_of_mem _ h1)

theorem getLatest_mem (coll : List PyDict) (l : PyDict) (h : getLatest coll = some l) :
    l ∈ coll := by
  rcases getLatestFrom_mem coll none l h with h1 | h1
  · cases h1
  · exact h1

theorem pdLt_ne (a b : PyDate) (h : pdLt a b = true) : a ≠ b := by
  intro hab
  subst hab
  simp [pdLt] at h

theorem bvalLt_dt_right (dd : PyDate) (t : Nat) (d : PyDate)
    (hlt : bvalLt (some (.dt dd t)) (some (.dt d 0)) = true) : pdLt dd d = true := by
  have h0 : bvalLt (some (.dt dd t)) (some (.dt d 0))
      = (pdLt dd d || (dd == d && decide (t < 0))) := rfl
  rw [h0] at hlt
  have ht : decide (t < 0) = false := by simp
  rw [ht, Bool.and_false, Bool.or_false] at hlt
  exact hlt

end RatesScrapper

/-! ### Synchronizer unfolding lemmas -/

namespace RatesScrapper

theorem fromIso?_ne_empty (s : String) (d : PyDate) (h : PyDate.fromIso? s = some d) :
    (s == "") = false := by
  by_cases hs : s = ""
  · subst hs
    cases h
  · simpa using hs

/-- `update_fx_rates` after a successful date parse, with the skip test and
the gold section exposed. -/
theorem update_fx_rates_eq (coll : List PyDict) (ex : ExchangeQ) (g : Option GoldQ)
    (ds : String) (d : PyDate) (hds : ex.rate_date = some ds)
    (hp : PyDate.fromIso? ds = some d) :
    update_fx_rates coll (some ex) g =
      (if latestDateMatches (getLatest coll) d then (coll, false)
       else
        match goldSection (zigRecord (getLatest coll) ex d) g d with
        | none => (coll, false)
        | some newRecord => (coll ++ [newRecord], true)) := by
  simp only [update_fx_rates, hds, hp, fromIso?_ne_empty ds d hp, Bool.false_eq_true, if_false]

theorem zigRecord_get_foreign (latest : Option PyDict) (ex : ExchangeQ) (d : PyDate)
    (k : String) (h_id : k ≠ "_id") (hD : k ≠ "Date") (hB : k ≠ "ZiG_Bid")
    (hA : k ≠ "ZiG_Ask") (hM : k ≠ "ZiG_Mid") :
    dictGet (zigRecord latest ex d) k = latest.bind (fun l => dictGet l k) := by
  unfold zigRecord
  rw [dictGet_dictSet_ne _ _ _ hM, dictGet_dictSet_ne _ _ _ hA,
    dictGet_dictSet_ne _ _ _ hB, dictGet_dictSet_ne _ _ _ hD]
  cases latest with
  | none => rfl
  | some l => exact dictGet_filterNe "_id" k h_id l

theorem zigRecord_get_Date (latest : Option PyDict) (ex : ExchangeQ) (d : PyDate) :
    dictGet (zigRecord latest ex d) "Date" = some (.dt d 0) := by
  unfold zigRecord
  rw [dictGet_dictSet_ne _ _ _ (by decide), dictGet_dictSet_ne _ _ _ (by decide),
    dictGet_dictSet_ne _ _ _ (by decide), dictGet_dictSet_self]

theorem zigRecord_get_Bid (latest : Option PyDict) (ex : ExchangeQ) (d : PyDate) :
    dictGet (zigRecord latest ex d) "ZiG_Bid" = some (toBVal ex.bid) := by
  unfold zigRecord
  rw [dictGet_dictSet_ne _ _ _ (by decide), dictGet_dictSet_ne _ _ _ (by decide),
    dictGet_dictSet_self]

theorem zigRecord_get_Ask (latest : Option PyDict) (ex : ExchangeQ) (d : PyDate) :
    dictGet (zigRecord latest ex d) "ZiG_Ask" = some (toBVal ex.ask) := by
  unfold zigRecord
  rw [dictGet_dictSet_ne _ _ _ (by decide), dictGet_dictSet_self]

theorem zigRecord_get_Mid (latest : Option PyDict) (ex : ExchangeQ) (d : PyDate) :
    dictGet (zigRecord latest ex d) "ZiG_Mid" = some (toBVal ex.avg) := by
  unfold zigRecord
  rw [dictGet_dictSet_self]

/-- The gold section never touches keys other than `Gold` and `eGold`. -/
theorem goldSection_get_other (r : PyDict) (g : Option GoldQ) (d : PyDate) (r2 : PyDict)
    (h : goldSection r g d = some r2) (k : String) (hG : k ≠ "Gold") (hE : k ≠ "eGold") :
    dictGet r2 k = dictGet r k := by
  cases g with
  | none => cases h; rfl
  | some gq =>
    cases hrd : gq.rate_date with
    | none => simp only [goldSection, hrd] at h; cases h; rfl
    | some s =>
      simp only [goldSection, hrd] at h
      by_cases hse : (s == "") = true
      · rw [if_pos hse] at h; cases h; rfl
      · rw [if_neg (by simp_all)] at h
        cases hps : PyDate.fromIso? s with
        | none => simp only [hps] at h; cases h
        | some gd =>
          simp only [hps] at h
          by_cases hgd : (gd == d) = true
          · rw [if_pos hgd, Option.some_inj] at h
            subst h
            by_cases hg2 : ratioGuard gq.digital_token_zwg gq.digital_token_usd = true
            · simp only [hg2, if_true]
              rw [dictGet_dictSet_ne _ _ _ hE]
              by_cases hg1 : ratioGuard gq.zwg gq.usd = true
              · simp only [hg1, if_true]
                rw [dictGet_dictSet_ne _ _ _ hG]
              · simp only [hg1, Bool.false_eq_true, if_false]
            · simp only [hg2, Bool.false_eq_true, if_false]
              by_cases hg1 : ratioGuard gq.zwg gq.usd = true
              · simp only [hg1, if_true]
                rw [dictGet_dictSet_ne _ _ _ hG]
              · simp only [hg1, Bool.false_eq_true, if_false]
          · rw [if_neg hgd, Option.some_inj] at h
            subst h
            rfl

/-- The gold section is the identity when the quotation is absent or its
(parsed) date differs from the exchange date. -/
theorem goldSection_keep (r : PyDict) (g : Option GoldQ) (d : PyDate)
    (h : g = none ∨ ∃ gq s gd, g = some gq ∧ gq.rate_date = some s ∧
      PyDate.fromIso? s = some gd ∧ gd ≠ d) :
    goldSection r g d = some r := by
  rcases h with h | ⟨gq, s, gd, hg, hs, hp, hne⟩
  · subst h; rfl
  · subst hg
    simp only [goldSection, hs, hp, fromIso?_ne_empty s gd hp, Bool.false_eq_true, if_false]
    rw [if_neg (by simpa using hne)]

end RatesScrapper

/-! ### Inserted-record characterisation -/

namespace RatesScrapper

/-- The field a prior maximal snapshot carries at `k` (`none` when the
collection is empty or the field absent). -/
def priorField (coll : List PyDict) (k : String) : Option BVal :=
  (getLatest coll).bind (fun l => dictGet l k)

theorem ratioGuard_pos (z u : ℚ) (hz : z ≠ 0) (hu : 0 < u) :
    ratioGuard (some z) (some u) = true := by
  simp [ratioGuard, hz, hu]

theorem ratioGuard_neg (zo uo : Option ℚ)
    (h : zo = none ∨ zo = some 0 ∨ uo = none ∨ ∃ u, uo = some u ∧ u ≤ 0) :
    ratioGuard zo uo = false := by
  rcases h with h | h | h | ⟨u, h, hu⟩ <;> subst h
  · rfl
  · cases uo <;> simp [ratioGuard]
  · cases zo <;> simp [ratioGuard]
  · cases zo <;> simp [ratioGuard]
    intro _
    exact hu

end RatesScrapper

namespace RatesScrapper

/-- When the gold date matches, the inserted record's `Gold`/`eGold` are the
guarded rounded ratios, else the incoming record's values. -/
theorem goldSection_match (r : PyDict) (gq : GoldQ) (d : PyDate) (s : String)
    (hs : gq.rate_date = some s) (hp : PyDate.fromIso? s = some d) (r2 : PyDict)
    (h : goldSection r (some gq) d = some r2) :
    (dictGet r2 "Gold" =
      if ratioGuard gq.zwg gq.usd then
        some (.num (pyRound4 (qDiv (gq.zwg.getD 0) (gq.usd.getD 0))))
      else dictGet r "Gold") ∧
    (dictGet r2 "eGold" =
      if ratioGuard gq.digital_token_zwg gq.digital_token_usd then
        some (.num (pyRound4 (qDiv (gq.digital_token_zwg.getD 0) (gq.digital_token_usd.getD 0))))
      else dictGet r "eGold") := by
  simp only [goldSection, hs, hp, fromIso?_ne_empty s d hp, Bool.false_eq_true, if_false] at h
  rw [if_pos (by simp), Option.some_inj] at h
  subst h
  constructor
  · by_cases hg2 : ratioGuard gq.digital_token_zwg gq.digital_token_usd = true
    · simp only [hg2, if_true]
      rw [dictGet_dictSet_ne _ _ _ (by decide)]
      by_cases hg1 : ratioGuard gq.zwg gq.usd = true
      · simp only [hg1, if_true, dictGet_dictSet_self]
      · simp only [hg1, Bool.false_eq_true, if_false]
    · simp only [hg2, Bool.false_eq_true, if_false]
      by_cases hg1 : ratioGuard gq.zwg gq.usd = true
      · simp only [hg1, if_true, dictGet_dictSet_self]
      · simp only [hg1, Bool.false_eq_true, if_false]
  · by_cases hg2 : ratioGuard gq.digital_token_zwg gq.digital_token_usd = true
    · simp only [hg2, if_true, dictGet_dictSet_self]
    · simp only [hg2, Bool.false_eq_true, if_false]
      by_cases hg1 : ratioGuard gq.zwg gq.usd = true
      · simp only [hg1, if_true]
        rw [dictGet_dictSet_ne _ _ _ (by decide)]
      · simp only [hg1, Bool.false_eq_true, if_false]

/-- A gold quotation that passes `goldDateOk` never aborts the build. -/
theorem goldSection_ok_isSome (r : PyDict) (g : Option GoldQ) (d : PyDate)
    (h : goldDateOk g = true) : (goldSection r g d).isSome = true := by
  cases g with
  | none => rfl
  | some gq =>
    cases hrd : gq.rate_date with
    | none => simp [goldSection, hrd]
    | some s =>
      simp only [goldDateOk, hrd] at h
      by_cases hse : (s == "") = true
      · simp [goldSection, hrd, hse]
      · rw [Bool.or_eq_true] at h
        rcases h with h | h
        · exact absurd h hse
        · rw [Option.isSome_iff_exists] at h
          obtain ⟨gd, hgd⟩ := h
          by_cases hq : (gd == d) = true
          · simp [goldSection, hrd, hse, hgd, hq]
          · simp [goldSection, hrd, hse, hgd, hq]

theorem getLatestFrom_append_max (rec : PyDict) :
    ∀ (coll : List PyDict) (acc : Option PyDict),
      (∀ doc ∈ coll, bvalLt (dictGet doc "Date") (dictGet rec "Date") = true) →
      (acc = none ∨ ∃ a, acc = some a ∧ bvalLt (dictGet a "Date") (dictGet rec "Date") = true) →
      getLatestFrom acc (coll ++ [rec]) = some rec := by
  intro coll
  induction coll with
  | nil =>
    intro acc _ hacc
    rcases hacc with h | ⟨a, ha, hlt⟩
    · subst h; rfl
    · subst ha
      show getLatestFrom
        (if bvalLt (dictGet a "Date") (dictGet rec "Date") then some rec else some a) [] = _
      rw [if_pos hlt]
      rfl
  | cons doc rest ih =>
    intro acc hall hacc
    have hdoc : bvalLt (dictGet doc "Date") (dictGet rec "Date") = true :=
      hall doc (List.mem_cons_self doc rest)
    have hrest : ∀ x ∈ rest, bvalLt (dictGet x "Date") (dictGet rec "Date") = true :=
      fun x hx => hall x (List.mem_cons_of_mem _ hx)
    rcases hacc with h | ⟨a, ha, hlt⟩
    · subst h
      exact ih (some doc) hrest (Or.inr ⟨doc, rfl, hdoc⟩)
    · subst ha
      show getLatestFrom
        (if bvalLt (dictGet a "Date") (dictGet doc "Date") then some doc else some a)
        (rest ++ [rec]) = _
      by_cases hc : bvalLt (dictGet a "Date") (dictGet doc "Date") = true
      · rw [if_pos hc]
        exact ih (some doc) hrest (Or.inr ⟨doc, rfl, hdoc⟩)
      · rw [if_neg hc]
        exact ih (some a) hrest (Or.inr ⟨a, rfl, hlt⟩)

theorem getLatest_append_max (coll : List PyDict) (rec : PyDict)
    (h : ∀ doc ∈ coll, bvalLt (dictGet doc "Date") (dictGet rec "Date") = true) :
    getLatest (coll ++ [rec]) = some rec :=
  getLatestFrom_append_max rec coll none h (Or.inl rfl)

/-- If every document's `Date` is BSON-below the midnight datetime of `d`,
the latest snapshot cannot carry calendar date `d`. -/
theorem latestDateMatches_of_all_lt (coll : List PyDict) (d : PyDate)
    (h : ∀ doc ∈ coll, bvalLt (dictGet doc "Date") (some (.dt d 0)) = true) :
    latestDateMatches (getLatest coll) d = false := by
  cases hL : getLatest coll with
  | none => rfl
  | some l =>
    have hlt := h l (getLatest_mem coll l hL)
    cases hv : dictGet l "Date" with
    | none => simp [latestDateMatches, hv]
    | some bv =>
      cases bv with
      | null => simp [latestDateMatches, hv]
      | num q => simp [latestDateMatches, hv]
      | str s => simp [latestDateMatches, hv]
      | dt dd t =>
        rw [hv] at hlt
        have hne := pdLt_ne dd d (bvalLt_dt_right dd t d hlt)
        simp [latestDateMatches, hv, hne]

/-- Every successful `update_fx_rates` call appends exactly the record the
gold section produced from the ZiG overwrite of the carried-forward base,
and only after the skip test failed. -/
theorem update_insert_rec (coll : List PyDict) (ex : ExchangeQ) (g : Option GoldQ)
    (ds : String) (d : PyDate) (rec : PyDict)
    (hds : ex.rate_date = some ds) (hp : PyDate.fromIso? ds = some d)
    (h : update_fx_rates coll (some ex) g = (coll ++ [rec], true)) :
    latestDateMatches (getLatest coll) d = false ∧
    goldSection (zigRecord (getLatest coll) ex d) g d = some rec := by
  rw [update_fx_rates_eq coll ex g ds d hds hp] at h
  by_cases hm : latestDateMatches (getLatest coll) d = true
  · rw [if_pos hm] at h
    exact absurd (congrArg Prod.snd h) (by simp)
  · rw [if_neg hm] at h
    refine ⟨by simpa using hm, ?_⟩
    cases hg : goldSection (zigRecord (getLatest coll) ex d) g d with
    | none =>
      rw [hg] at h
      exact absurd (congrArg Prod.snd h) (by simp)
    | some rec' =>
      rw [hg] at h
      have h1 : coll ++ [rec'] = coll ++ [rec] := congrArg Prod.fst h
      have h2 : rec' = rec := by
        have := List.append_cancel_left h1
        simpa using this
      rw [h2]

end RatesScrapper

-- synchronizer sanity checks
example :
    RatesScrapper.update_fx_rates []
      (some { rate_date := some "2025-12-29", bid := some 25, ask := some 26,
              avg := some (Rat.divInt 51 2) })
      none
    = ([[("Date", .dt ⟨2025, 12, 29⟩ 0), ("ZiG_Bid", .num 25),
         ("ZiG_Ask", .num 26), ("ZiG_Mid", .num (Rat.divInt 51 2))]], true) := by
  decide

-- the spec §8 physical-ratio example: round(121519.17 / 4671.87, 4) in
-- exact arithmetic agrees with the float result 26.0108
example :
    RatesScrapper.pyRound4 (qDiv (Rat.divInt 12151917 100) (Rat.divInt 467187 100))
      = Rat.divInt 260108 10000 := by
  decide

/-! ### Claims C1–C3 -/

namespace RatesScrapper

/-- Exchange quotation used by the C1 counterexample and witness. -/
def c1Exchange : ExchangeQ :=
  { rate_date := some "2025-12-29", bid := some 25, ask := some 26, avg := some 26 }

/-- A collection whose maximal snapshot carries a later date
(2026-01-05) than the incoming quotation. -/
def c1Coll : List PyDict := [[("Date", BVal.dt ⟨2026, 1, 5⟩ 0)]]

end RatesScrapper

/-- Counterexample to C1 as stated: over a collection whose maximal
snapshot is dated 2026-01-05, two successive calls with the identical
exchange quotation for 2025-12-29 both insert — the second is not skipped
and two snapshots are added, not one. -/
theorem claim_C1_counterexample :
    (RatesScrapper.update_fx_rates RatesScrapper.c1Coll (some RatesScrapper.c1Exchange) none).2
        = true ∧
    (RatesScrapper.update_fx_rates
        (RatesScrapper.update_fx_rates RatesScrapper.c1Coll
          (some RatesScrapper.c1Exchange) none).1
        (some RatesScrapper.c1Exchange) none).2 = true ∧
    (RatesScrapper.update_fx_rates
        (RatesScrapper.update_fx_rates RatesScrapper.c1Coll
          (some RatesScrapper.c1Exchange) none).1
        (some RatesScrapper.c1Exchange) none).1.length = 3 := by
  decide

/-- C1, amended.  (a) Skip condition: whenever the maximal-`Date` snapshot
carries a datetime of the same calendar date as the exchange `rate_date`,
`update_fx_rates` inserts nothing and reports the skipped (`false`)
outcome.  (b) Double-call idempotence holds provided every prior document's
`Date` is BSON-below the midnight datetime of the rate date (in particular
over an empty collection or one holding only earlier snapshots), and the
gold quotation does not abort on a malformed date: the first call inserts
exactly one snapshot, the second is skipped and leaves the state
unchanged. -/
theorem claim_C1_idempotence_amended (coll : List RatesScrapper.PyDict)
    (ex : RatesScrapper.ExchangeQ) (g : Option RatesScrapper.GoldQ)
    (ds : String) (d : RatesScrapper.PyDate)
    (hds : ex.rate_date = some ds) (hp : RatesScrapper.PyDate.fromIso? ds = some d) :
    (∀ l dd t, RatesScrapper.getLatest coll = some l →
      RatesScrapper.dictGet l "Date" = some (.dt dd t) → dd = d →
      RatesScrapper.update_fx_rates coll (some ex) g = (coll, false)) ∧
    ((∀ doc ∈ coll, RatesScrapper.bvalLt (RatesScrapper.dictGet doc "Date")
        (some (.dt d 0)) = true) →
      RatesScrapper.goldDateOk g = true →
      (RatesScrapper.update_fx_rates coll (some ex) g).2 = true ∧
      (RatesScrapper.update_fx_rates coll (some ex) g).1.length = coll.length + 1 ∧
      RatesScrapper.update_fx_rates
          (RatesScrapper.update_fx_rates coll (some ex) g).1 (some ex) g
        = ((RatesScrapper.update_fx_rates coll (some ex) g).1, false)) := by
  constructor
  · intro l dd t hl hv hdd
    rw [RatesScrapper.update_fx_rates_eq coll ex g ds d hds hp]
    rw [if_pos (by simp [RatesScrapper.latestDateMatches, hl, hv, hdd])]
  · intro hall hok
    have hm : RatesScrapper.latestDateMatches (RatesScrapper.getLatest coll) d = false :=
      RatesScrapper.latestDateMatches_of_all_lt coll d hall
    have hsome := RatesScrapper.goldSection_ok_isSome
      (RatesScrapper.zigRecord (RatesScrapper.getLatest coll) ex d) g d hok
    rw [Option.isSome_iff_exists] at hsome
    obtain ⟨rec, hgsec⟩ := hsome
    have h1 : RatesScrapper.update_fx_rates coll (some ex) g = (coll ++ [rec], true) := by
      rw [RatesScrapper.update_fx_rates_eq coll ex g ds d hds hp]
      rw [if_neg (by simp [hm])]
      rw [hgsec]
    have hrecDate : RatesScrapper.dictGet rec "Date" = some (.dt d 0) := by
      rw [RatesScrapper.goldSection_get_other _ _ _ _ hgsec "Date" (by decide) (by decide),
        RatesScrapper.zigRecord_get_Date]
    have hlatest : RatesScrapper.getLatest (coll ++ [rec]) = some rec :=
      RatesScrapper.getLatest_append_max coll rec (by rw [hrecDate]; exact hall)
    refine ⟨by rw [h1], by rw [h1]; simp, ?_⟩
    rw [h1]
    rw [RatesScrapper.update_fx_rates_eq (coll ++ [rec]) ex g ds d hds hp]
    rw [if_pos (by simp [RatesScrapper.latestDateMatches, hlatest, hrecDate])]

/-- Witness for the amended C1 on an empty collection: one insert, then a
skip that leaves the collection unchanged. -/
theorem claim_C1_witness :
    (RatesScrapper.update_fx_rates [] (some RatesScrapper.c1Exchange) none).2 = true ∧
    (RatesScrapper.update_fx_rates [] (some RatesScrapper.c1Exchange) none).1.length
        = List.length ([] : List RatesScrapper.PyDict) + 1 ∧
    RatesScrapper.update_fx_rates
        (RatesScrapper.update_fx_rates [] (some RatesScrapper.c1Exchange) none).1
        (some RatesScrapper.c1Exchange) none
      = ((RatesScrapper.update_fx_rates [] (some RatesScrapper.c1Exchange) none).1, false) :=
  (claim_C1_idempotence_amended [] RatesScrapper.c1Exchange none "2025-12-29" ⟨2025, 12, 29⟩
      rfl (by decide)).2 (by intro doc hdoc; cases hdoc) (by decide)

namespace RatesScrapper

/-- Concrete prior collection for the C2 witness: the maximal snapshot
carries a foreign field `Legacy` and a `Gold` value. -/
def c2Coll : List PyDict :=
  [[("_id", BVal.str "x1"), ("Date", BVal.dt ⟨2025, 12, 28⟩ 0),
    ("Legacy", BVal.str "keep"), ("Gold", BVal.num 5)]]

/-- Exchange quotation for the C2 witness. -/
def c2Exchange : ExchangeQ :=
  { rate_date := some "2025-12-29", bid := some 25, ask := some 26, avg := some 26 }

/-- The record the C2 witness expects to be inserted. -/
def c2Rec : PyDict :=
  [("Date", BVal.dt ⟨2025, 12, 29⟩ 0), ("Legacy", BVal.str "keep"), ("Gold", BVal.num 5),
   ("ZiG_Bid", BVal.num 25), ("ZiG_Ask", BVal.num 26), ("ZiG_Mid", BVal.num 26)]

end RatesScrapper

/-- C2.  Carry-forward frame property: whenever `update_fx_rates` inserts a
record, every key other than `_id` and the pipeline-owned
`Date`/`ZiG_Bid`/`ZiG_Ask`/`ZiG_Mid`/`Gold`/`eGold` reads in the new record
exactly as in the prior maximal snapshot (and is absent when the collection
was empty); `Date` is the rate date normalised to midnight; the three ZiG
fields are the quotation's bid/ask/mid (the mid rate travels in the
source's `avg` key, `None` becoming null); and when the gold quotation is
absent or its parsed `rate_date` differs from the exchange date, `Gold` and
`eGold` also read exactly as in the prior snapshot. -/
theorem claim_C2_carry_forward_frame (coll : List RatesScrapper.PyDict)
    (ex : RatesScrapper.ExchangeQ) (g : Option RatesScrapper.GoldQ)
    (rec : RatesScrapper.PyDict) (ds : String) (d : RatesScrapper.PyDate)
    (hds : ex.rate_date = some ds) (hp : RatesScrapper.PyDate.fromIso? ds = some d)
    (h : RatesScrapper.update_fx_rates coll (some ex) g = (coll ++ [rec], true)) :
    (∀ k : String,
      k ∉ (["_id", "Date", "ZiG_Bid", "ZiG_Ask", "ZiG_Mid", "Gold", "eGold"] : List String) →
      RatesScrapper.dictGet rec k = RatesScrapper.priorField coll k) ∧
    RatesScrapper.dictGet rec "Date" = some (.dt d 0) ∧
    RatesScrapper.dictGet rec "ZiG_Bid" = some (RatesScrapper.toBVal ex.bid) ∧
    RatesScrapper.dictGet rec "ZiG_Ask" = some (RatesScrapper.toBVal ex.ask) ∧
    RatesScrapper.dictGet rec "ZiG_Mid" = some (RatesScrapper.toBVal ex.avg) ∧
    ((g = none ∨ ∃ gq s gd, g = some gq ∧ gq.rate_date = some s ∧
        RatesScrapper.PyDate.fromIso? s = some gd ∧ gd ≠ d) →
      RatesScrapper.dictGet rec "Gold" = RatesScrapper.priorField coll "Gold" ∧
      RatesScrapper.dictGet rec "eGold" = RatesScrapper.priorField coll "eGold") := by
  obtain ⟨hm, hgsec⟩ := RatesScrapper.update_insert_rec coll ex g ds d rec hds hp h
  refine ⟨?_, ?_, ?_, ?_, ?_, ?_⟩
  · intro k hk
    simp only [List.mem_cons, List.not_mem_nil, or_false, not_or] at hk
    obtain ⟨h1, h2, h3, h4, h5, h6, h7⟩ := hk
    rw [RatesScrapper.goldSection_get_other _ _ _ _ hgsec k h6 h7,
      RatesScrapper.zigRecord_get_foreign _ _ _ k h1 h2 h3 h4 h5]
    rfl
  · rw [RatesScrapper.goldSection_get_other _ _ _ _ hgsec "Date" (by decide) (by decide),
      RatesScrapper.zigRecord_get_Date]
  · rw [RatesScrapper.goldSection_get_other _ _ _ _ hgsec "ZiG_Bid" (by decide) (by decide),
      RatesScrapper.zigRecord_get_Bid]
  · rw [RatesScrapper.goldSection_get_other _ _ _ _ hgsec "ZiG_Ask" (by decide) (by decide),
      RatesScrapper.zigRecord_get_Ask]
  · rw [RatesScrapper.goldSection_get_other _ _ _ _ hgsec "ZiG_Mid" (by decide) (by decide),
      RatesScrapper.zigRecord_get_Mid]
  · intro hcase
    rw [RatesScrapper.goldSection_keep _ _ _ hcase, Option.some_inj] at hgsec
    subst hgsec
    constructor
    · rw [RatesScrapper.zigRecord_get_foreign _ _ _ "Gold"
        (by decide) (by decide) (by decide) (by decide) (by decide)]
      rfl
    · rw [RatesScrapper.zigRecord_get_foreign _ _ _ "eGold"
        (by decide) (by decide) (by decide) (by decide) (by decide)]
      rfl

/-- Witness for C2: the foreign `Legacy` field and prior `Gold` survive
verbatim into the inserted record, and the pipeline fields are set. -/
theorem claim_C2_witness :
    RatesScrapper.dictGet RatesScrapper.c2Rec "Legacy"
        = RatesScrapper.priorField RatesScrapper.c2Coll "Legacy" ∧
    RatesScrapper.dictGet RatesScrapper.c2Rec "Date" = some (.dt ⟨2025, 12, 29⟩ 0) ∧
    RatesScrapper.dictGet RatesScrapper.c2Rec "Gold"
        = RatesScrapper.priorField RatesScrapper.c2Coll "Gold" := by
  have H := claim_C2_carry_forward_frame RatesScrapper.c2Coll RatesScrapper.c2Exchange none
    RatesScrapper.c2Rec "2025-12-29" ⟨2025, 12, 29⟩ rfl (by decide) (by decide)
  exact ⟨H.1 "Legacy" (by decide), H.2.1, (H.2.2.2.2.2 (Or.inl rfl)).1⟩

namespace RatesScrapper

/-- Exchange quotation shared by the C3 counterexample and witness. -/
def c3Exchange : ExchangeQ :=
  { rate_date := some "2025-12-29", bid := some 1, ask := some 1, avg := some 1 }

/-- Gold quotation with a present-but-zero local-currency price. -/
def c3GoldZero : GoldQ :=
  { rate_date := some "2025-12-29", zwg := some 0, usd := some 1 }

/-- Gold quotation for the C3 witness (ratio 17/2 rounds to itself). -/
def c3Gold : GoldQ :=
  { rate_date := some "2025-12-29", zwg := some 17, usd := some 2,
    digital_token_zwg := some 9, digital_token_usd := some 4 }

/-- The record the C3 witness expects to be inserted. -/
def c3Rec : PyDict :=
  [("Date", BVal.dt ⟨2025, 12, 29⟩ 0), ("ZiG_Bid", BVal.num 1), ("ZiG_Ask", BVal.num 1),
   ("ZiG_Mid", BVal.num 1), ("Gold", BVal.num (Rat.divInt 17 2)),
   ("eGold", BVal.num (Rat.divInt 9 4))]

end RatesScrapper

/-- Counterexample to C3 as stated: with gold prices `zwg = 0.0` (present)
and `usd = 1.0 > 0`, the claim demands `Gold = round(0/1, 4) = 0`, but the
source's truthiness guard (`zwg and usd and usd > 0`) rejects the zero
numerator: the record is inserted with no `Gold` field at all (the prior
carried-forward value, absent here). -/
theorem claim_C3_counterexample :
    RatesScrapper.c3GoldZero.zwg = some 0 ∧
    RatesScrapper.c3GoldZero.usd = some 1 ∧ ((0 : ℚ) < 1) ∧
    (RatesScrapper.update_fx_rates [] (some RatesScrapper.c3Exchange)
        (some RatesScrapper.c3GoldZero)).2 = true ∧
    RatesScrapper.dictGet
        ((RatesScrapper.update_fx_rates [] (some RatesScrapper.c3Exchange)
          (some RatesScrapper.c3GoldZero)).1.getD 0 []) "Gold" = none := by
  refine ⟨rfl, rfl, by norm_num, by decide, by decide⟩

/-- C3, amended.  When a gold quotation carries the exchange's rate date:
if `zwg` is present and nonzero and `usd` present and strictly positive,
the inserted record's `Gold` equals `round(zwg/usd, 4)`; if `zwg` is
missing or zero, or `usd` missing or non-positive, `Gold` reads exactly as
in the prior maximal snapshot (never null); and the same for `eGold` with
the digital-token pair. -/
theorem claim_C3_derived_ratio_amended (coll : List RatesScrapper.PyDict)
    (ex : RatesScrapper.ExchangeQ) (gq : RatesScrapper.GoldQ)
    (rec : RatesScrapper.PyDict) (ds gs : String) (d : RatesScrapper.PyDate)
    (hds : ex.rate_date = some ds) (hp : RatesScrapper.PyDate.fromIso? ds = some d)
    (hgs : gq.rate_date = some gs) (hgp : RatesScrapper.PyDate.fromIso? gs = some d)
    (h : RatesScrapper.update_fx_rates coll (some ex) (some gq) = (coll ++ [rec], true)) :
    (∀ z u : ℚ, gq.zwg = some z → z ≠ 0 → gq.usd = some u → 0 < u →
      RatesScrapper.dictGet rec "Gold"
        = some (.num (RatesScrapper.pyRound4 (z / u)))) ∧
    ((gq.zwg = none ∨ gq.zwg = some 0 ∨ gq.usd = none ∨ ∃ u, gq.usd = some u ∧ u ≤ 0) →
      RatesScrapper.dictGet rec "Gold" = RatesScrapper.priorField coll "Gold") ∧
    (∀ z u : ℚ, gq.digital_token_zwg = some z → z ≠ 0 →
      gq.digital_token_usd = some u → 0 < u →
      RatesScrapper.dictGet rec "eGold"
        = some (.num (RatesScrapper.pyRound4 (z / u)))) ∧
    ((gq.digital_token_zwg = none ∨ gq.digital_token_zwg = some 0 ∨
        gq.digital_token_usd = none ∨ ∃ u, gq.digital_token_usd = some u ∧ u ≤ 0) →
      RatesScrapper.dictGet rec "eGold" = RatesScrapper.priorField coll "eGold") := by
  obtain ⟨hm, hgsec⟩ := RatesScrapper.update_insert_rec coll ex (some gq) ds d rec hds hp h
  obtain ⟨hGold, hEGold⟩ := RatesScrapper.goldSection_match _ gq d gs hgs hgp rec hgsec
  refine ⟨?_, ?_, ?_, ?_⟩
  · intro z u hz hz0 hu hu0
    rw [hGold, if_pos (by rw [hz, hu]; exact RatesScrapper.ratioGuard_pos z u hz0 hu0)]
    rw [hz, hu]
    simp only [Option.getD_some, qDiv_eq]
  · intro hcase
    rw [hGold, if_neg (by rw [RatesScrapper.ratioGuard_neg gq.zwg gq.usd hcase]; simp)]
    rw [RatesScrapper.zigRecord_get_foreign _ _ _ "Gold"
      (by decide) (by decide) (by decide) (by decide) (by decide)]
    rfl
  · intro z u hz hz0 hu hu0
    rw [hEGold, if_pos (by rw [hz, hu]; exact RatesScrapper.ratioGuard_pos z u hz0 hu0)]
    rw [hz, hu]
    simp only [Option.getD_some, qDiv_eq]
  · intro hcase
    rw [hEGold, if_neg
      (by rw [RatesScrapper.ratioGuard_neg gq.digital_token_zwg gq.digital_token_usd hcase]
          simp)]
    rw [RatesScrapper.zigRecord_get_foreign _ _ _ "eGold"
      (by decide) (by decide) (by decide) (by decide) (by decide)]
    rfl

/-- Witness for the amended C3: `zwg = 17`, `usd = 2` gives
`Gold = round(17/2, 4) = 8.5`; the digital pair `9/4` gives `eGold = 2.25`. -/
theorem claim_C3_witness :
    RatesScrapper.dictGet RatesScrapper.c3Rec "Gold"
        = some (.num (RatesScrapper.pyRound4 ((17 : ℚ) / 2))) ∧
    RatesScrapper.dictGet RatesScrapper.c3Rec "eGold"
        = some (.num (RatesScrapper.pyRound4 ((9 : ℚ) / 4))) := by
  have H := claim_C3_derived_ratio_amended [] RatesScrapper.c3Exchange RatesScrapper.c3Gold
    RatesScrapper.c3Rec "2025-12-29" "2025-12-29" ⟨2025, 12, 29⟩ rfl (by decide) rfl
    (by decide) (by decide)
  exact ⟨H.1 17 2 rfl (by norm_num) rfl (by norm_num),
    H.2.2.1 9 4 rfl (by norm_num) rfl (by norm_num)⟩

/-! ### DOM extraction row loops (src/lib/scraper.py lines 108–197)

A row is modelled by the list of its cell texts
(`row.locator("td").all_inner_texts()`); the date sniffed from the page
header by regex is passed in as `headerDate`, since it does not live in the
row set. -/

namespace RatesScrapper

/-- ASCII `str.upper()` (the labels and markers the source tests are
ASCII). -/
def upperStr (s : String) : String :=
  String.mk (s.toList.map (fun c =>
    if 'a' ≤ c && c ≤ 'z' then Char.ofNat (c.toNat - 32) else c))

/-- `str.strip()` as a string-to-string map. -/
def stripStr (s : String) : String :=
  String.mk (pyStrip s.toList)

/-- The dictionary built by `_extract_exchange_rates_dom`. -/
structure ExchData where
  rate_date : Option String := none
  currency_pair : Option String := none
  bid : Option ℚ := none
  ask : Option ℚ := none
  avg : Option ℚ := none
deriving DecidableEq, Repr

/-- The row loop of `_extract_exchange_rates_dom`: scan rows; on a row with
at least four cells whose first names both USD and ZWG, write the pair
label and parse bid/ask/avg in order; a `ValueError` (`float` failure)
abandons the row — keeping the fields already written — and continues; a
fully parsed row breaks the loop. -/
def exchLoop (data : ExchData) : List (List String) → ExchData
  | [] => data
  | cells :: rest =>
    if cells.length ≥ 4 && strContains (cells.getD 0 "") "USD"
        && strContains (cells.getD 0 "") "ZWG" then
      let d1 := { data with currency_pair := some "USD/ZWG" }
      match pyFloat? (stripCommas (cells.getD 1 "")) with
      | none => exchLoop d1 rest
      | some b =>
        let d2 := { d1 with bid := some b }
        match pyFloat? (stripCommas (cells.getD 2 "")) with
        | none => exchLoop d2 rest
        | some a =>
          let d3 := { d2 with ask := some a }
          match pyFloat? (stripCommas (cells.getD 3 "")) with
          | none => exchLoop d3 rest
          | some v => { d3 with avg := some v }
    else exchLoop data rest

/-- Embedding of `_extract_exchange_rates_dom`: run the row loop, then
`return data if "bid" in data else None`. -/
def extract_exchange_rates_dom (headerDate : Option String)
    (rows : List (List String)) : Option ExchData :=
  let data := exchLoop { rate_date := headerDate } rows
  if data.bid.isSome then some data else none

/-- Spec-side row test for claim C9: first cell names the tracked pair
(contains both USD and ZWG), at least four cells, and the following three
cells parse as numbers after comma-stripping. -/
def exchRowMatches (cells : List String) : Bool :=
  cells.length ≥ 4 && strContains (cells.getD 0 "") "USD"
    && strContains (cells.getD 0 "") "ZWG"
    && (pyFloat? (stripCommas (cells.getD 1 ""))).isSome
    && (pyFloat? (stripCommas (cells.getD 2 ""))).isSome
    && (pyFloat? (stripCommas (cells.getD 3 ""))).isSome

/-- The dictionary built by `_extract_gold_rates_dom`. -/
structure GoldData where
  rate_date : Option String := none
  usd : Option ℚ := none
  zar : Option ℚ := none
  zwg : Option ℚ := none
  gbp : Option ℚ := none
  eur : Option ℚ := none
  digital_token_usd : Option ℚ := none
  digital_token_zwg : Option ℚ := none
deriving DecidableEq, Repr

/-- The fixed currency-code table `{"USD", "ZAR", "ZWG", "GBP", "EUR"}`. -/
def isCurrencyCode (code : String) : Bool :=
  code == "USD" || code == "ZAR" || code == "ZWG" || code == "GBP" || code == "EUR"

/-- `data[currencies[code]]`, reading. -/
def getCurrency (data : GoldData) (code : String) : Option ℚ :=
  if code == "USD" then data.usd
  else if code == "ZAR" then data.zar
  else if code == "ZWG" then data.zwg
  else if code == "GBP" then data.gbp
  else if code == "EUR" then data.eur
  else none

/-- `data[currencies[code]] = v`. -/
def setCurrency (data : GoldData) (code : String) (v : ℚ) : GoldData :=
  if code == "USD" then { data with usd := some v }
  else if code == "ZAR" then { data with zar := some v }
  else if code == "ZWG" then { data with zwg := some v }
  else if code == "GBP" then { data with gbp := some v }
  else if code == "EUR" then { data with eur := some v }
  else data

/-- The inner cell scan of a `DIGITAL TOKEN PRICE` row: each later cell is
stripped and upper-cased; a cell carrying `USD` assigns the digit/dot
remainder to `digital_token_usd`, a cell carrying `ZIG` or `ZWG` to
`digital_token_zwg` — each side independently.  A `float` failure raises,
abandoning the rest of the row while keeping earlier assignments (the
row-level `except … pass`). -/
def digitalScan (data : GoldData) : List String → GoldData
  | [] => data
  | c :: rest =>
    let cc := upperStr (stripStr c)
    if strContains cc "USD" then
      let vs := keepDigitsDots cc
      if vs == "" then digitalScan data rest
      else
        match pyFloat? vs with
        | some v => digitalScan { data with digital_token_usd := some v } rest
        | none => data
    else if strContains cc "ZIG" || strContains cc "ZWG" then
      let vs := keepDigitsDots cc
      if vs == "" then digitalScan data rest
      else
        match pyFloat? vs with
        | some v => digitalScan { data with digital_token_zwg := some v } rest
        | none => data
    else digitalScan data rest

/-- One row of the gold scan: empty rows and rows of fewer than two cells
are skipped; a digital-token row runs `digitalScan` over its remaining
cells; a standard currency row whose code is not yet recorded parses the
price cell (third cell when present, else second) after comma-stripping
and digit/dot filtering, skipping silently on failure. -/
def goldRowStep (data : GoldData) (cells : List String) : GoldData :=
  match cells with
  | [] => data
  | _ =>
    if cells.length ≥ 2 then
      let label := stripStr (cells.getD 0 "")
      if strContains (upperStr label) "DIGITAL TOKEN PRICE" then
        digitalScan data cells.tail
      else
        let price_text :=
          stripStr (if cells.length ≥ 3 then cells.getD 2 "" else cells.getD 1 "")
        if isCurrencyCode label && (getCurrency data label).isNone then
          let cleaned := keepDigitsDots (stripCommas price_text)
          if cleaned == "" then data
          else
            match pyFloat? cleaned with
            | some v => setCurrency data label v
            | none => data
        else data
    else data

/-- Any field set, the dict-truthiness test of `return data if data else
None`. -/
def goldDataNonempty (d : GoldData) : Bool :=
  d.rate_date.isSome || d.usd.isSome || d.zar.isSome || d.zwg.isSome || d.gbp.isSome
    || d.eur.isSome || d.digital_token_usd.isSome || d.digital_token_zwg.isSome

/-- Embedding of `_extract_gold_rates_dom`. -/
def extract_gold_rates_dom (headerDate : Option String)
    (rows : List (List String)) : Option GoldData :=
  let data := rows.foldl goldRowStep { rate_date := headerDate }
  if goldDataNonempty data then some data else none

end RatesScrapper

-- extraction sanity checks
example :
    RatesScrapper.extract_exchange_rates_dom (some "2025-12-29")
      [["ZAR", "x"], ["USD/ZWG", "25.36", "26.66", "26.01"]]
    = some { rate_date := some "2025-12-29", currency_pair := some "USD/ZWG",
             bid := some (Rat.divInt 2536 100), ask := some (Rat.divInt 2666 100),
             avg := some (Rat.divInt 2601 100) } := by decide

example :
    RatesScrapper.extract_gold_rates_dom none
      [["USD", "", "4,671.87"], ["DIGITAL TOKEN PRICE", "USD0.1279", "ZiG3.34"]]
    = some { usd := some (Rat.divInt 467187 100),
             digital_token_usd := some (Rat.divInt 1279 10000),
             digital_token_zwg := some (Rat.divInt 334 100) } := by decide

namespace RatesScrapper

/-- Under any starting dictionary, the loop run over non-matching rows
followed by a fully matching row returns the matching row's parse,
preserving the header date. -/
theorem exchLoop_first_match (r : List String) (post : List (List String))
    (hr : exchRowMatches r = true) :
    ∀ (pre : List (List String)) (data : ExchData),
      (∀ c ∈ pre, exchRowMatches c = false) →
      exchLoop data (pre ++ r :: post) =
        { rate_date := data.rate_date, currency_pair := some "USD/ZWG",
          bid := pyFloat? (stripCommas (r.getD 1 "")),
          ask := pyFloat? (stripCommas (r.getD 2 "")),
          avg := pyFloat? (stripCommas (r.getD 3 "")) } := by
  intro pre
  induction pre with
  | nil =>
    intro data _
    simp only [List.nil_append]
    simp only [exchRowMatches, Bool.and_eq_true] at hr
    obtain ⟨⟨⟨⟨⟨hlen, hu⟩, hz⟩, h1⟩, h2⟩, h3⟩ := hr
    rw [Option.isSome_iff_exists] at h1 h2 h3
    obtain ⟨b, hb⟩ := h1
    obtain ⟨a, ha⟩ := h2
    obtain ⟨v, hv⟩ := h3
    show exchLoop data (r :: post) = _
    simp only [exchLoop, hlen, hu, hz, Bool.and_true, Bool.true_and, if_true, hb, ha, hv]
  | cons c pre ih =>
    intro data hpre
    have hc : exchRowMatches c = false := hpre c (List.mem_cons_self c pre)
    have hrest : ∀ x ∈ pre, exchRowMatches x = false :=
      fun x hx => hpre x (List.mem_cons_of_mem _ hx)
    show exchLoop data (c :: (pre ++ r :: post)) = _
    by_cases hhead : (c.length ≥ 4 && strContains (c.getD 0 "") "USD"
        && strContains (c.getD 0 "") "ZWG") = true
    · have hhead' := hhead
      rw [Bool.and_eq_true, Bool.and_eq_true] at hhead'
      cases h1 : pyFloat? (stripCommas (c.getD 1 "")) with
      | none =>
        simp only [exchLoop, hhead, if_true, h1]
        exact ih _ hrest
      | some b =>
        cases h2 : pyFloat? (stripCommas (c.getD 2 "")) with
        | none =>
          simp only [exchLoop, hhead, if_true, h1, h2]
          exact ih _ hrest
        | some a =>
          cases h3 : pyFloat? (stripCommas (c.getD 3 "")) with
          | none =>
            simp only [exchLoop, hhead, if_true, h1, h2, h3]
            exact ih _ hrest
          | some v =>
            exfalso
            have hmatch : exchRowMatches c = true := by
              simp only [exchRowMatches, hhead'.1.1, hhead'.1.2, hhead'.2, h1, h2, h3,
                Option.isSome_some, Bool.and_self, Bool.and_true, Bool.true_and]
            rw [hmatch] at hc
            cases hc
    · simp only [exchLoop, hhead, Bool.false_eq_true, if_false]
      exact ih _ hrest

end RatesScrapper

/-- C9.  First-matching-row selection: for any row sequence decomposed as
`pre ++ r :: post` where no row of `pre` passes the currency-pair test with
three numeric cells and `r` does (in particular whenever two or more rows
match, with `r` the first in document order), the exchange extraction
returns exactly `r`'s parsed bid/ask/mid and the fixed pair label,
regardless of what follows. -/
theorem claim_C9_first_matching_row (headerDate : Option String)
    (pre post : List (List String)) (r : List String)
    (hpre : ∀ c ∈ pre, RatesScrapper.exchRowMatches c = false)
    (hr : RatesScrapper.exchRowMatches r = true) :
    RatesScrapper.extract_exchange_rates_dom headerDate (pre ++ r :: post)
      = some { rate_date := headerDate, currency_pair := some "USD/ZWG",
               bid := RatesScrapper.pyFloat? (RatesScrapper.stripCommas (r.getD 1 "")),
               ask := RatesScrapper.pyFloat? (RatesScrapper.stripCommas (r.getD 2 "")),
               avg := RatesScrapper.pyFloat? (RatesScrapper.stripCommas (r.getD 3 "")) } := by
  unfold RatesScrapper.extract_exchange_rates_dom
  rw [RatesScrapper.exchLoop_first_match r post hr pre _ hpre]
  have hbid : (RatesScrapper.pyFloat? (RatesScrapper.stripCommas (r.getD 1 ""))).isSome = true := by
    simp only [RatesScrapper.exchRowMatches, Bool.and_eq_true] at hr
    exact hr.1.1.2
  simp only [hbid, if_true]

namespace RatesScrapper

/-- The spec §8 two-row fixture: two superficially matching rows (plus a
leading non-matching one); the first matching row in document order wins. -/
def c9Rows : List (List String) :=
  [["ZAR", "oops"],
   ["USD/ZWG", "25.36", "26.66", "26.01"],
   ["USD/ZWG", "99.0", "98.0", "97.0"]]

end RatesScrapper

/-- Witness for C9 on the two-row fixture: the first matching row's values
are returned, not the second's. -/
theorem claim_C9_witness :
    RatesScrapper.extract_exchange_rates_dom none RatesScrapper.c9Rows
      = some { rate_date := none, currency_pair := some "USD/ZWG",
               bid := RatesScrapper.pyFloat? (RatesScrapper.stripCommas "25.36"),
               ask := RatesScrapper.pyFloat? (RatesScrapper.stripCommas "26.66"),
               avg := RatesScrapper.pyFloat? (RatesScrapper.stripCommas "26.01") } ∧
    (RatesScrapper.extract_exchange_rates_dom none RatesScrapper.c9Rows).map
        (fun dct => dct.bid) = some (some (Rat.divInt 2536 100)) :=
  ⟨claim_C9_first_matching_row none [["ZAR", "oops"]]
      [["USD/ZWG", "99.0", "98.0", "97.0"]] ["USD/ZWG", "25.36", "26.66", "26.01"]
      (by decide) (by decide),
   by decide⟩

namespace RatesScrapper

/-- Whenever the digital-token ratio guard is false for the quotation (in
particular when either digital-token price is absent), the gold section
leaves `eGold` exactly as in the incoming record. -/
theorem goldSection_eGold_keep (r : PyDict) (g : Option GoldQ) (d : PyDate) (rec : PyDict)
    (h : goldSection r g d = some rec)
    (hguard : ∀ gq, g = some gq → ratioGuard gq.digital_token_zwg gq.digital_token_usd = false) :
    dictGet rec "eGold" = dictGet r "eGold" := by
  cases g with
  | none => cases h; rfl
  | some gq =>
    cases hrd : gq.rate_date with
    | none => simp only [goldSection, hrd] at h; cases h; rfl
    | some s =>
      simp only [goldSection, hrd] at h
      by_cases hse : (s == "") = true
      · rw [if_pos hse] at h; cases h; rfl
      · rw [if_neg (by simp_all)] at h
        cases hps : PyDate.fromIso? s with
        | none => simp only [hps] at h; cases h
        | some gd =>
          simp only [hps] at h
          by_cases hgd : (gd == d) = true
          · rw [if_pos hgd, Option.some_inj] at h
            subst h
            rw [hguard gq rfl]
            simp only [Bool.false_eq_true, if_false]
            by_cases hg1 : ratioGuard gq.zwg gq.usd = true
            · simp only [hg1, if_true]
              rw [dictGet_dictSet_ne _ _ _ (by decide)]
            · simp only [hg1, Bool.false_eq_true, if_false]
          · rw [if_neg hgd, Option.some_inj] at h
            subst h
            rfl

/-- Exchange quotation for the C8 witness. -/
def c8Exchange : ExchangeQ :=
  { rate_date := some "2025-12-29", bid := some 1, ask := some 1, avg := some 1 }

/-- A gold quotation as the extractor produces from a one-sided
digital-token row: `digital_token_usd` present, `digital_token_zwg`
absent. -/
def c8Gold : GoldQ :=
  { rate_date := some "2025-12-29", zwg := some 17, usd := some 2,
    digital_token_usd := some 1 }

end RatesScrapper

/-- Counterexample to C8 as stated: a digital-token row whose only
parseable marked cell is the USD one yields a gold quotation with
`digital_token_usd` present and `digital_token_zwg` absent — the pair is
one-sided, violating the both-or-neither invariant. -/
theorem claim_C8_counterexample :
    (RatesScrapper.extract_gold_rates_dom none
        [["DIGITAL TOKEN PRICE", "USD0.1279"]]).map
      (fun g => (g.digital_token_usd.isSome, g.digital_token_zwg.isSome))
    = some (true, false) := by decide

/-- C8, amended.  The extractor sets the two digital-token fields
independently, so the produced pair may be one-sided (counterexample);
the invariant that does hold is the claim's parenthetical: a digital ratio
is only computed when both prices exist — whenever `update_fx_rates`
inserts a record and either digital-token price of the gold quotation is
absent (or the quotation itself is), the inserted `eGold` reads exactly as
in the prior maximal snapshot. -/
theorem claim_C8_digital_pair_amended (coll : List RatesScrapper.PyDict)
    (ex : RatesScrapper.ExchangeQ) (g : Option RatesScrapper.GoldQ)
    (rec : RatesScrapper.PyDict) (ds : String) (d : RatesScrapper.PyDate)
    (hds : ex.rate_date = some ds) (hp : RatesScrapper.PyDate.fromIso? ds = some d)
    (h : RatesScrapper.update_fx_rates coll (some ex) g = (coll ++ [rec], true))
    (hside : ∀ gq, g = some gq →
      gq.digital_token_usd = none ∨ gq.digital_token_zwg = none) :
    RatesScrapper.dictGet rec "eGold" = RatesScrapper.priorField coll "eGold" := by
  obtain ⟨hm, hgsec⟩ := RatesScrapper.update_insert_rec coll ex g ds d rec hds hp h
  rw [RatesScrapper.goldSection_eGold_keep _ _ _ _ hgsec ?_]
  · rw [RatesScrapper.zigRecord_get_foreign _ _ _ "eGold"
      (by decide) (by decide) (by decide) (by decide) (by decide)]
    rfl
  · intro gq hgq
    rcases hside gq hgq with hu | hz
    · exact RatesScrapper.ratioGuard_neg _ _ (Or.inr (Or.inr (Or.inl hu)))
    · exact RatesScrapper.ratioGuard_neg _ _ (Or.inl hz)

namespace RatesScrapper

/-- The record the C8 witness expects to be inserted (gold ratio set,
`eGold` untouched). -/
def c8Rec : PyDict :=
  [("Date", BVal.dt ⟨2025, 12, 29⟩ 0), ("ZiG_Bid", BVal.num 1), ("ZiG_Ask", BVal.num 1),
   ("ZiG_Mid", BVal.num 1), ("Gold", BVal.num (Rat.divInt 17 2))]

end RatesScrapper

/-- Witness for the amended C8: syncing a one-sided digital-token pair
leaves `eGold` at the (absent) prior value. -/
theorem claim_C8_witness :
    RatesScrapper.dictGet RatesScrapper.c8Rec "eGold"
      = RatesScrapper.priorField [] "eGold" :=
  claim_C8_digital_pair_amended [] RatesScrapper.c8Exchange (some RatesScrapper.c8Gold)
    RatesScrapper.c8Rec "2025-12-29" ⟨2025, 12, 29⟩ rfl (by decide) (by decide)
    (by
      intro gq hgq
      rw [← Option.some_inj.mp hgq]
      exact Or.inr rfl)

/-! ### Run controller (src/lib/scraper.py `run`/`scrape_rates`), the
business-day gate (src/lib/holidays.py) and the local store (src/lib/db.py)

The local SQLite tables are modelled by the projections the pipeline reads:
the key sets of `exchange_rates`/`gold_rates` (only existence is consulted,
by `has_successful_*_scrape`), the append-only `scrape_runs` rows, the
`public_holidays` rows keyed by year, and — modelled from the spec, see
`holidayChecked` — the per-date "already checked" marker.  Extraction,
holiday-oracle and remote-connection I/O are oracles passed as inputs. -/

namespace RatesScrapper

/-- One `scrape_runs` row, projected to the fields the claims consult. -/
structure RunRecord where
  run_date : PyDate
  gold_success : Bool
  exchange_success : Bool
deriving DecidableEq, Repr

/-- The local persistent state. -/
structure LocalState where
  exchangeDates : List PyDate := []
  goldDates : List PyDate := []
  runRecords : List RunRecord := []
  holidayChecked : List PyDate := []
  holidayCache : List (Nat × String) := []
  mongoColl : List PyDict := []
deriving DecidableEq, Repr

/-- The per-invocation inputs: today's date, the force flag, and the
oracles for webpage extraction, the PDF fallback, the holiday API
(`none` = request exception / unreachable, `some raws` = the JSON list of
holiday `date` strings), and remote-store connectivity. -/
structure RunInputs where
  today : PyDate
  force : Bool := false
  webExchange : Option ExchangeQ := none
  webGold : Option GoldQ := none
  pdfGold : Option GoldQ := none
  oracleFetch : Option (List String) := none
  mongoOk : Bool := true
deriving DecidableEq, Repr

/-- Observable collaborator calls of one invocation. -/
structure RunEvents where
  extractorInvoked : Bool := false
  notified : Bool := false
  invalidatedFor : Option PyDate := none
  mongoResult : Option Bool := none
deriving DecidableEq, Repr

/-- No collaborator was called. -/
def noEvents : RunEvents := {}

/-- `SELECT holiday_date FROM public_holidays WHERE year = ?`
(`RatesDatabase.get_cached_holidays`). -/
def cachedHolidayDates (st : LocalState) (year : Nat) : List String :=
  (st.holidayCache.filter (fun r => r.1 == year)).map (fun r => r.2)

/-- `RatesDatabase.cache_holidays`: delete the year's rows, insert the
formatted dates. -/
def cacheHolidaysFn (st : LocalState) (year : Nat) (dates : List String) : LocalState :=
  { st with holidayCache :=
      st.holidayCache.filter (fun r => r.1 != year) ++ dates.map (fun s => (year, s)) }

/-- Embedding of `ZimbabweHolidays.is_public_holiday`.  The methods
`was_holiday_checked`/`mark_holiday_checked` it calls are declared nowhere
under `src/`; modelled from the spec: a local cache "keyed by (date or
year) and a freshness/'already checked' marker to avoid repeated remote
calls for dates already resolved as non-holidays" — `holidayChecked` is the
set of dates already queried.  `_fetch_holiday_for_date` converts any
request exception or non-200 response to the empty list (`fetch = none`),
so an unreachable oracle reads as "no holiday" (fails open).  Fetched
holiday rows are formatted by parsing their `date` as `MM/DD/YYYY`,
falling back to the queried date itself. -/
def is_public_holiday (st : LocalState) (check_date : PyDate)
    (fetch : Option (List String)) : Bool × LocalState :=
  if check_date ∈ st.holidayChecked then
    (check_date.iso ∈ cachedHolidayDates st check_date.year, st)
  else
    let holidays := fetch.getD []
    let st1 := { st with holidayChecked := st.holidayChecked ++ [check_date] }
    match holidays with
    | [] => (false, st1)
    | _ =>
      let formatted := holidays.map (fun raw =>
        match parseMMDDYYYY? raw with
        | some dd => dd.iso
        | none => check_date.iso)
      (true, cacheHolidaysFn st1 check_date.year formatted)

/-- Embedding of `ZimbabweHolidays.is_business_day`: weekend (weekday ≥ 5)
is never a business day; otherwise not a public holiday. -/
def is_business_day (st : LocalState) (check_date : PyDate)
    (fetch : Option (List String)) : Bool × LocalState :=
  if check_date.weekday ≥ 5 then (false, st)
  else
    let (h, st') := is_public_holiday st check_date fetch
    (!h, st')

/-- Insert a date into a key set unless present (the effect of the upsert
keyed by `rate_date`). -/
def upsertDate (dates : List PyDate) (d : PyDate) : List PyDate :=
  if d ∈ dates then dates else dates ++ [d]

/-- The gold quotation that ends up in the result dictionary: the webpage
one if present, else the PDF fallback (fetched only in that case). -/
def goldUsed (inp : RunInputs) : Option GoldQ :=
  match inp.webGold with
  | some g => some g
  | none => inp.pdfGold

/-- The local save of the exchange quotation (source line 308):
`date.fromisoformat` on the quotation's `rate_date` (defaulting to today's
ISO date) is not wrapped in any `try`, so a malformed date is an unhandled
`ValueError`, modelled as `none`. -/
def exchangeSave (st : LocalState) (inp : RunInputs) : Option LocalState :=
  match inp.webExchange with
  | none => some st
  | some ex =>
    match PyDate.fromIso? (ex.rate_date.getD inp.today.iso) with
    | none => none
    | some rd => some { st with exchangeDates := upsertDate st.exchangeDates rd }

/-- The local save of the gold quotation (source lines 313/324), same
`ValueError` semantics. -/
def goldSave (st : LocalState) (inp : RunInputs) : Option LocalState :=
  match goldUsed inp with
  | none => some st
  | some g =>
    match PyDate.fromIso? (g.rate_date.getD inp.today.iso) with
    | none => none
    | some rd => some { st with goldDates := upsertDate st.goldDates rd }

/-- The remote step (source lines 327–331): no call without an exchange
quotation (`mongoResult = none`); a failed connection returns `False`
without touching the collection; otherwise `update_fx_rates` runs. -/
def mongoStep (coll : List PyDict) (inp : RunInputs) : List PyDict × Option Bool :=
  match inp.webExchange with
  | none => (coll, none)
  | some ex =>
    if inp.mongoOk then
      ((update_fx_rates coll (some ex) (goldUsed inp)).1,
        some (update_fx_rates coll (some ex) (goldUsed inp)).2)
    else (coll, some false)

/-- The single run record `scrape_rates` logs (source line 344):
`gold_rates`/`exchange_rates` presence flags for today's date. -/
def runRecordOf (inp : RunInputs) : RunRecord :=
  { run_date := inp.today, gold_success := (goldUsed inp).isSome,
    exchange_success := inp.webExchange.isSome }

/-- Embedding of `RBZRateScraper.scrape_rates` as a function of the local
state and the extraction/remote oracles.  Returns `none` when an unhandled
`ValueError` escapes (a present but malformed `rate_date` in an extraction
result); otherwise the new state, the collaborator events and the
`"completed"` status.  Exactly one run record is appended, at the end;
notification and cache invalidation (for today) happen exactly when the
remote step returned `True`. -/
def scrape_rates (st : LocalState) (inp : RunInputs) :
    Option (LocalState × RunEvents × String) :=
  match exchangeSave st inp with
  | none => none
  | some st1 =>
    match goldSave st1 inp with
    | none => none
    | some st2 =>
      let ms := mongoStep st2.mongoColl inp
      let st3 : LocalState :=
        { st2 with mongoColl := ms.1, runRecords := st2.runRecords ++ [runRecordOf inp] }
      let ev : RunEvents :=
        { extractorInvoked := true, notified := ms.2 == some true,
          invalidatedFor := if ms.2 == some true then some inp.today else none,
          mongoResult := ms.2 }
      some (st3, ev, "completed")

/-- Embedding of `RBZRateScraper.run`: gate on the business day, then on
already-captured data unless forced, then scrape.  The skip paths return
before any extraction, persistence or logging. -/
def runScraper (st : LocalState) (inp : RunInputs) :
    Option (LocalState × RunEvents × String) :=
  let gate := is_business_day st inp.today inp.oracleFetch
  if !gate.1 then some (gate.2, noEvents, "skipped")
  else if !inp.force && decide (inp.today ∈ gate.2.goldDates)
      && decide (inp.today ∈ gate.2.exchangeDates) then
    some (gate.2, noEvents, "already_scraped")
  else scrape_rates gate.2 inp

/-- Well-formed extraction outcomes: every `rate_date` an extraction
result carries (with today's ISO date as the `.get` default) parses — the
condition under which `scrape_rates` raises no `ValueError`. -/
def wfInputs (inp : RunInputs) : Prop :=
  (∀ ex, inp.webExchange = some ex →
    (PyDate.fromIso? (ex.rate_date.getD inp.today.iso)).isSome = true) ∧
  (∀ g, inp.webGold = some g →
    (PyDate.fromIso? (g.rate_date.getD inp.today.iso)).isSome = true) ∧
  (inp.webGold = none → ∀ g, inp.pdfGold = some g →
    (PyDate.fromIso? (g.rate_date.getD inp.today.iso)).isSome = true)

end RatesScrapper

-- run-controller sanity checks
example :
    RatesScrapper.runScraper {} { today := ⟨2025, 12, 27⟩ } = some ({}, {}, "skipped") := by
  decide

example :
    (RatesScrapper.runScraper {}
        { today := ⟨2025, 12, 29⟩,
          webExchange := some { rate_date := some "2025-12-29", bid := some 25,
                                ask := some 26, avg := some 26 } }).map
      (fun out => (out.1.runRecords.length, out.1.mongoColl.length,
                   out.2.1.notified, out.2.1.invalidatedFor, out.2.2))
    = some (1, 1, true, some ⟨2025, 12, 29⟩, "completed") := by decide

example :
    (RatesScrapper.runScraper { exchangeDates := [⟨2025, 12, 29⟩], goldDates := [⟨2025, 12, 29⟩] }
        { today := ⟨2025, 12, 29⟩ }).map (fun out => (out.1.runRecords.length, out.2.2))
    = some (0, "already_scraped") := by decide



namespace RatesScrapper

/-- A successful `update_fx_rates` grows the collection by one; an
unsuccessful one leaves it untouched. -/
theorem update_fx_rates_state (coll : List PyDict) (exo : Option ExchangeQ)
    (g : Option GoldQ) :
    ((update_fx_rates coll exo g).2 = true
        ∧ (update_fx_rates coll exo g).1.length = coll.length + 1)
    ∨ ((update_fx_rates coll exo g).2 = false ∧ (update_fx_rates coll exo g).1 = coll) := by
  cases exo with
  | none => exact Or.inr ⟨rfl, rfl⟩
  | some ex =>
    cases hds : ex.rate_date with
    | none => refine Or.inr ⟨?_, ?_⟩ <;> simp [update_fx_rates, hds]
    | some ds =>
      by_cases hse : (ds == "") = true
      · refine Or.inr ⟨?_, ?_⟩ <;> simp [update_fx_rates, hds, hse]
      · cases hp : PyDate.fromIso? ds with
        | none => refine Or.inr ⟨?_, ?_⟩ <;> simp [update_fx_rates, hds, hse, hp]
        | some d =>
          by_cases hm : latestDateMatches (getLatest coll) d = true
          · refine Or.inr ⟨?_, ?_⟩ <;> simp [update_fx_rates, hds, hse, hp, hm]
          · cases hg : goldSection (zigRecord (getLatest coll) ex d) g d with
            | none => refine Or.inr ⟨?_, ?_⟩ <;> simp [update_fx_rates, hds, hse, hp, hm, hg]
            | some rec =>
              refine Or.inl ⟨?_, ?_⟩ <;> simp [update_fx_rates, hds, hse, hp, hm, hg]

theorem exchangeSave_some (st st1 : LocalState) (inp : RunInputs)
    (h : exchangeSave st inp = some st1) :
    st1.runRecords = st.runRecords ∧ st1.mongoColl = st.mongoColl ∧
    st1.goldDates = st.goldDates ∧ st1.holidayChecked = st.holidayChecked ∧
    st1.holidayCache = st.holidayCache := by
  cases hex : inp.webExchange with
  | none =>
    simp only [exchangeSave, hex] at h
    cases h
    exact ⟨rfl, rfl, rfl, rfl, rfl⟩
  | some ex =>
    simp only [exchangeSave, hex] at h
    cases hp : PyDate.fromIso? (ex.rate_date.getD inp.today.iso) with
    | none => simp only [hp] at h; cases h
    | some rd =>
      simp only [hp] at h
      cases h
      exact ⟨rfl, rfl, rfl, rfl, rfl⟩

theorem goldSave_some (st st1 : LocalState) (inp : RunInputs)
    (h : goldSave st inp = some st1) :
    st1.runRecords = st.runRecords ∧ st1.mongoColl = st.mongoColl ∧
    st1.exchangeDates = st.exchangeDates ∧ st1.holidayChecked = st.holidayChecked ∧
    st1.holidayCache = st.holidayCache := by
  cases hg : goldUsed inp with
  | none =>
    simp only [goldSave, hg] at h
    cases h
    exact ⟨rfl, rfl, rfl, rfl, rfl⟩
  | some g =>
    simp only [goldSave, hg] at h
    cases hp : PyDate.fromIso? (g.rate_date.getD inp.today.iso) with
    | none => simp only [hp] at h; cases h
    | some rd =>
      simp only [hp] at h
      cases h
      exact ⟨rfl, rfl, rfl, rfl, rfl⟩

theorem mongoStep_true (coll : List PyDict) (inp : RunInputs)
    (h : (mongoStep coll inp).2 = some true) :
    (mongoStep coll inp).1.length = coll.length + 1 := by
  cases hex : inp.webExchange with
  | none => simp only [mongoStep, hex] at h; cases h
  | some ex =>
    simp only [mongoStep, hex] at h ⊢
    by_cases hok : inp.mongoOk = true
    · simp only [hok, if_true] at h ⊢
      rcases update_fx_rates_state coll (some ex) (goldUsed inp) with ⟨_, hlen⟩ | ⟨hfalse, _⟩
      · exact hlen
      · rw [Option.some_inj] at h
        rw [hfalse] at h
        cases h
    · simp only [hok, Bool.false_eq_true, if_false, Option.some_inj] at h

theorem mongoStep_not_true (coll : List PyDict) (inp : RunInputs)
    (h : (mongoStep coll inp).2 ≠ some true) :
    (mongoStep coll inp).1 = coll := by
  cases hex : inp.webExchange with
  | none => simp only [mongoStep, hex]
  | some ex =>
    simp only [mongoStep, hex] at h ⊢
    by_cases hok : inp.mongoOk = true
    · simp only [hok, if_true] at h ⊢
      rcases update_fx_rates_state coll (some ex) (goldUsed inp) with ⟨htrue, _⟩ | ⟨_, hcoll⟩
      · exact absurd (by rw [htrue]) h
      · exact hcoll
    · simp only [hok, Bool.false_eq_true, if_false]

/-- Everything one successful `scrape_rates` run reports and changes. -/
theorem scrape_rates_some (st : LocalState) (inp : RunInputs)
    (st' : LocalState) (ev : RunEvents) (s : String)
    (h : scrape_rates st inp = some (st', ev, s)) :
    s = "completed" ∧
    st'.runRecords = st.runRecords ++ [runRecordOf inp] ∧
    ev.extractorInvoked = true ∧
    ev.mongoResult = (mongoStep st.mongoColl inp).2 ∧
    ev.notified = (ev.mongoResult == some true) ∧
    ev.invalidatedFor = (if ev.mongoResult == some true then some inp.today else none) ∧
    st'.mongoColl = (mongoStep st.mongoColl inp).1 := by
  unfold scrape_rates at h
  cases h1 : exchangeSave st inp with
  | none => simp only [h1] at h; cases h
  | some st1 =>
    simp only [h1] at h
    cases h2 : goldSave st1 inp with
    | none => simp only [h2] at h; cases h
    | some st2 =>
      simp only [h2] at h
      obtain ⟨hr1, hm1, -, -, -⟩ := exchangeSave_some st st1 inp h1
      obtain ⟨hr2, hm2, -, -, -⟩ := goldSave_some st1 st2 inp h2
      rw [Option.some_inj] at h
      have hA := congrArg Prod.fst h
      have hBC := congrArg Prod.snd h
      have hB := congrArg Prod.fst hBC
      have hC := congrArg Prod.snd hBC
      simp only at hA hB hC
      subst hA
      subst hB
      subst hC
      refine ⟨rfl, ?_, rfl, ?_, rfl, rfl, ?_⟩
      · show st2.runRecords ++ [runRecordOf inp] = st.runRecords ++ [runRecordOf inp]
        rw [hr2, hr1]
      · show (mongoStep st2.mongoColl inp).2 = (mongoStep st.mongoColl inp).2
        rw [hm2, hm1]
      · show (mongoStep st2.mongoColl inp).1 = (mongoStep st.mongoColl inp).1
        rw [hm2, hm1]

end RatesScrapper

namespace RatesScrapper

/-- The business-day gate only writes to the holiday tables. -/
theorem is_business_day_state (st : LocalState) (d : PyDate) (fetch : Option (List String)) :
    (is_business_day st d fetch).2.runRecords = st.runRecords ∧
    (is_business_day st d fetch).2.goldDates = st.goldDates ∧
    (is_business_day st d fetch).2.exchangeDates = st.exchangeDates ∧
    (is_business_day st d fetch).2.mongoColl = st.mongoColl := by
  unfold is_business_day is_public_holiday
  by_cases hw : d.weekday ≥ 5
  · simp [hw]
  · by_cases hc : d ∈ st.holidayChecked
    · simp [hw, hc]
    · cases hf : fetch.getD [] with
      | nil => simp [hw, hc, hf]
      | cons a rest => simp [hw, hc, hf, cacheHolidaysFn]

/-- Well-formed extraction outcomes never raise: `scrape_rates` completes. -/
theorem scrape_rates_isSome (st : LocalState) (inp : RunInputs) (hwf : wfInputs inp) :
    (scrape_rates st inp).isSome = true := by
  obtain ⟨hwe, hwg, hwp⟩ := hwf
  have h1 : ∃ st1, exchangeSave st inp = some st1 := by
    cases hex : inp.webExchange with
    | none => exact ⟨st, by simp [exchangeSave, hex]⟩
    | some ex =>
      have := hwe ex hex
      rw [Option.isSome_iff_exists] at this
      obtain ⟨rd, hrd⟩ := this
      exact ⟨{ st with exchangeDates := upsertDate st.exchangeDates rd },
        by simp [exchangeSave, hex, hrd]⟩
  obtain ⟨st1, h1⟩ := h1
  have h2 : ∃ st2, goldSave st1 inp = some st2 := by
    cases hg : goldUsed inp with
    | none => exact ⟨st1, by simp [goldSave, hg]⟩
    | some g =>
      have hsome : (PyDate.fromIso? (g.rate_date.getD inp.today.iso)).isSome = true := by
        cases hwgx : inp.webGold with
        | some g0 =>
          have : g0 = g := by
            simp only [goldUsed, hwgx] at hg
            exact Option.some_inj.mp hg
          exact this ▸ hwg g0 hwgx
        | none =>
          have : inp.pdfGold = some g := by
            simp only [goldUsed, hwgx] at hg
            exact hg
          exact hwp hwgx g this
      rw [Option.isSome_iff_exists] at hsome
      obtain ⟨rd, hrd⟩ := hsome
      exact ⟨{ st1 with goldDates := upsertDate st1.goldDates rd },
        by simp [goldSave, hg, hrd]⟩
  obtain ⟨st2, h2⟩ := h2
  unfold scrape_rates
  simp only [h1, h2, Option.isSome_some]

end RatesScrapper

/-- C6.  Business-day gate: a weekend date makes the run return `skipped`
with no collaborator invoked (events = `noEvents`, so in particular the
extractor) and the state untouched; a non-weekend date already checked and
recorded in the local holiday cache does the same; and for an unchecked
date with an unreachable oracle the holiday determination returns `False`
(fails open) after only marking the date checked — it cannot crash the
run, being total.  (`was_holiday_checked`/`mark_holiday_checked` are
modelled from the spec, see `is_public_holiday`.) -/
theorem claim_C6_business_day_gate (st : RatesScrapper.LocalState)
    (inp : RatesScrapper.RunInputs) :
    (inp.today.weekday ≥ 5 →
      RatesScrapper.runScraper st inp = some (st, RatesScrapper.noEvents, "skipped")) ∧
    (inp.today.weekday < 5 → inp.today ∈ st.holidayChecked →
      inp.today.iso ∈ RatesScrapper.cachedHolidayDates st inp.today.year →
      RatesScrapper.runScraper st inp = some (st, RatesScrapper.noEvents, "skipped")) ∧
    (inp.today ∉ st.holidayChecked → inp.oracleFetch = none →
      RatesScrapper.is_public_holiday st inp.today inp.oracleFetch
        = (false, { st with holidayChecked := st.holidayChecked ++ [inp.today] })) := by
  refine ⟨?_, ?_, ?_⟩
  · intro hw
    have hg : RatesScrapper.is_business_day st inp.today inp.oracleFetch = (false, st) := by
      unfold RatesScrapper.is_business_day
      rw [if_pos hw]
    simp [RatesScrapper.runScraper, hg]
  · intro hw hchecked hmem
    have hph : RatesScrapper.is_public_holiday st inp.today inp.oracleFetch = (true, st) := by
      unfold RatesScrapper.is_public_holiday
      rw [if_pos hchecked]
      simp [hmem]
    have hg : RatesScrapper.is_business_day st inp.today inp.oracleFetch = (false, st) := by
      unfold RatesScrapper.is_business_day
      rw [if_neg (by omega), hph]
      rfl
    simp [RatesScrapper.runScraper, hg]
  · intro hnc hfetch
    unfold RatesScrapper.is_public_holiday
    rw [if_neg hnc, hfetch]
    rfl

/-- Witness for C6: a Saturday is skipped untouched; a cached, checked
Monday holiday is skipped; an unchecked date with the oracle down reads as
not a holiday. -/
theorem claim_C6_witness :
    RatesScrapper.runScraper {} { today := ⟨2025, 12, 27⟩ }
      = some ({}, RatesScrapper.noEvents, "skipped") ∧
    RatesScrapper.runScraper
        { holidayChecked := [⟨2025, 12, 22⟩], holidayCache := [(2025, "2025-12-22")] }
        { today := ⟨2025, 12, 22⟩ }
      = some ({ holidayChecked := [⟨2025, 12, 22⟩], holidayCache := [(2025, "2025-12-22")] },
          RatesScrapper.noEvents, "skipped") ∧
    RatesScrapper.is_public_holiday {} ⟨2025, 12, 29⟩ none
      = (false, { holidayChecked := [⟨2025, 12, 29⟩] }) :=
  ⟨(claim_C6_business_day_gate {} { today := ⟨2025, 12, 27⟩ }).1 (by decide),
   (claim_C6_business_day_gate
      { holidayChecked := [⟨2025, 12, 22⟩], holidayCache := [(2025, "2025-12-22")] }
      { today := ⟨2025, 12, 22⟩ }).2.1 (by decide) (by decide) (by decide),
   (claim_C6_business_day_gate {} { today := ⟨2025, 12, 29⟩ }).2.2 (by decide) rfl⟩

/-- Counterexample to C5 as stated: a run on a Saturday reaches the
terminal `skipped` state by returning before `log_scrape_run` is ever
called — the audit log stays empty instead of gaining one row. -/
theorem claim_C5_counterexample :
    (RatesScrapper.runScraper {} { today := ⟨2025, 12, 27⟩ }).map
        (fun out => (out.1.runRecords.length, out.2.2))
      = some (0, "skipped") := by decide

/-- C5, amended.  Only invocations that proceed to scraping write a Run
Record, and those write exactly one (provided extraction outcomes are
well formed, i.e. raise no `ValueError` on their rate dates): a
non-business-day invocation returns `skipped` and an unforced invocation
with both quotations already captured returns `already_scraped`, each
writing none; otherwise the run completes with exactly one appended
record, dated today with the capture flags. -/
theorem claim_C5_audit_amended (st : RatesScrapper.LocalState)
    (inp : RatesScrapper.RunInputs) (hwf : RatesScrapper.wfInputs inp) :
    ((RatesScrapper.is_business_day st inp.today inp.oracleFetch).1 = false →
      RatesScrapper.runScraper st inp
        = some ((RatesScrapper.is_business_day st inp.today inp.oracleFetch).2,
            RatesScrapper.noEvents, "skipped") ∧
      (RatesScrapper.is_business_day st inp.today inp.oracleFetch).2.runRecords
        = st.runRecords) ∧
    ((RatesScrapper.is_business_day st inp.today inp.oracleFetch).1 = true →
      (!inp.force
        && decide (inp.today ∈ (RatesScrapper.is_business_day st inp.today inp.oracleFetch).2.goldDates)
        && decide (inp.today ∈ (RatesScrapper.is_business_day st inp.today inp.oracleFetch).2.exchangeDates)) = true →
      RatesScrapper.runScraper st inp
        = some ((RatesScrapper.is_business_day st inp.today inp.oracleFetch).2,
            RatesScrapper.noEvents, "already_scraped") ∧
      (RatesScrapper.is_business_day st inp.today inp.oracleFetch).2.runRecords
        = st.runRecords) ∧
    ((RatesScrapper.is_business_day st inp.today inp.oracleFetch).1 = true →
      (!inp.force
        && decide (inp.today ∈ (RatesScrapper.is_business_day st inp.today inp.oracleFetch).2.goldDates)
        && decide (inp.today ∈ (RatesScrapper.is_business_day st inp.today inp.oracleFetch).2.exchangeDates)) = false →
      (RatesScrapper.runScraper st inp).isSome = true ∧
      ∀ st' ev s, RatesScrapper.runScraper st inp = some (st', ev, s) →
        s = "completed" ∧
        st'.runRecords = st.runRecords ++ [RatesScrapper.runRecordOf inp]) := by
  obtain ⟨hrec, -, -, -⟩ :=
    RatesScrapper.is_business_day_state st inp.today inp.oracleFetch
  refine ⟨?_, ?_, ?_⟩
  · intro hb
    refine ⟨?_, hrec⟩
    unfold RatesScrapper.runScraper
    simp only [hb, Bool.not_false, if_true]
  · intro hb hcond
    refine ⟨?_, hrec⟩
    unfold RatesScrapper.runScraper
    simp only [hb, Bool.not_true, Bool.false_eq_true, if_false, hcond, if_true]
  · intro hb hcond
    have hrun : RatesScrapper.runScraper st inp
        = RatesScrapper.scrape_rates
            (RatesScrapper.is_business_day st inp.today inp.oracleFetch).2 inp := by
      unfold RatesScrapper.runScraper
      simp only [hb, Bool.not_true, Bool.false_eq_true, if_false, hcond]
    constructor
    · rw [hrun]
      exact RatesScrapper.scrape_rates_isSome _ inp hwf
    · intro st' ev s h
      rw [hrun] at h
      obtain ⟨hs, hrecs, -, -, -, -, -⟩ := RatesScrapper.scrape_rates_some _ inp st' ev s h
      exact ⟨hs, by rw [hrecs, hrec]⟩

namespace RatesScrapper

/-- Inputs for the C5 witness: a Monday with a webpage exchange
quotation. -/
def c5Inputs : RunInputs :=
  { today := ⟨2025, 12, 29⟩,
    webExchange := some { rate_date := some "2025-12-29", bid := some 25,
                          ask := some 26, avg := some 26 } }

/-- The state after the C5 witness run. -/
def c5Result : LocalState :=
  { exchangeDates := [⟨2025, 12, 29⟩],
    runRecords := [{ run_date := ⟨2025, 12, 29⟩, gold_success := false,
                     exchange_success := true }],
    holidayChecked := [⟨2025, 12, 29⟩],
    mongoColl := [[("Date", BVal.dt ⟨2025, 12, 29⟩ 0), ("ZiG_Bid", BVal.num 25),
                   ("ZiG_Ask", BVal.num 26), ("ZiG_Mid", BVal.num 26)]] }

/-- The events of the C5 witness run. -/
def c5Events : RunEvents :=
  { extractorInvoked := true, notified := true,
    invalidatedFor := some ⟨2025, 12, 29⟩, mongoResult := some true }

end RatesScrapper

/-- Witness for the amended C5: a business-day run over the empty state
with one exchange quotation completes and appends exactly one run
record. -/
theorem claim_C5_witness :
    (RatesScrapper.runScraper {} RatesScrapper.c5Inputs).isSome = true ∧
    ("completed" = "completed" ∧
      RatesScrapper.c5Result.runRecords
        = ({} : RatesScrapper.LocalState).runRecords
            ++ [RatesScrapper.runRecordOf RatesScrapper.c5Inputs]) :=
  by
  have hwf : RatesScrapper.wfInputs RatesScrapper.c5Inputs := by
    refine ⟨?_, ?_, ?_⟩
    · intro ex hex
      cases hex
      decide
    · intro g hg
      cases hg
    · intro _ g hg
      cases hg
  have H := (claim_C5_audit_amended {} RatesScrapper.c5Inputs hwf).2.2 (by decide) (by decide)
  exact ⟨H.1, H.2 RatesScrapper.c5Result RatesScrapper.c5Events "completed" (by decide)⟩

/-- C7.  Invalidation/notification gating: in every run that reaches a
terminal state, the notifier and the cache invalidation (for the run date)
are invoked exactly when the remote synchronization reported `True` — a
successful insert of a new snapshot, which grows the collection by one;
on a skipped path, a skipped synchronization (`mongoResult ≠ some true`,
covering the already-synced date, the failed connection and the absent
quotation) or a failure, neither the notifier nor the invalidation fires
and the remote collection is untouched. -/
theorem claim_C7_notify_invalidate_gating (st : RatesScrapper.LocalState)
    (inp : RatesScrapper.RunInputs) (st' : RatesScrapper.LocalState)
    (ev : RatesScrapper.RunEvents) (s : String)
    (h : RatesScrapper.runScraper st inp = some (st', ev, s)) :
    (ev.notified = true ∨ ev.invalidatedFor ≠ none → ev.mongoResult = some true) ∧
    (ev.mongoResult = some true →
      ev.notified = true ∧ ev.invalidatedFor = some inp.today ∧
      st'.mongoColl.length = st.mongoColl.length + 1) ∧
    (ev.mongoResult ≠ some true →
      ev.notified = false ∧ ev.invalidatedFor = none ∧ st'.mongoColl = st.mongoColl) := by
  obtain ⟨-, -, -, hmc⟩ :=
    RatesScrapper.is_business_day_state st inp.today inp.oracleFetch
  by_cases hb : (RatesScrapper.is_business_day st inp.today inp.oracleFetch).1 = true
  · by_cases hcond : (!inp.force
        && decide (inp.today ∈ (RatesScrapper.is_business_day st inp.today inp.oracleFetch).2.goldDates)
        && decide (inp.today ∈ (RatesScrapper.is_business_day st inp.today inp.oracleFetch).2.exchangeDates)) = true
    · -- already_scraped path: no collaborator call, untouched collection
      unfold RatesScrapper.runScraper at h
      simp only [hb, Bool.not_true, Bool.false_eq_true, if_false, hcond, if_true,
        Option.some_inj] at h
      have hA := congrArg Prod.fst h
      have hB := congrArg Prod.fst (congrArg Prod.snd h)
      simp only at hA hB
      subst hA
      subst hB
      refine ⟨?_, ?_, ?_⟩
      · rintro (hn | hi)
        · cases hn
        · exact absurd rfl hi
      · intro hm
        cases hm
      · intro _
        exact ⟨rfl, rfl, hmc⟩
    · -- scrape path: events mirror the remote step's report
      have hrun : RatesScrapper.scrape_rates
          (RatesScrapper.is_business_day st inp.today inp.oracleFetch).2 inp
          = some (st', ev, s) := by
        unfold RatesScrapper.runScraper at h
        simpa only [hb, Bool.not_true, Bool.false_eq_true, if_false, hcond] using h
      obtain ⟨-, -, -, hmr, hnot, hinv, hcoll⟩ :=
        RatesScrapper.scrape_rates_some _ inp st' ev s hrun
      rw [hmc] at hmr hcoll
      by_cases hbeq : (ev.mongoResult == some true) = true
      · have hm : ev.mongoResult = some true := eq_of_beq hbeq
        refine ⟨fun _ => hm, ?_, ?_⟩
        · intro _
          refine ⟨by rw [hnot, hbeq], by rw [hinv, hbeq, if_pos rfl], ?_⟩
          rw [hcoll]
          exact RatesScrapper.mongoStep_true st.mongoColl inp (hmr ▸ hm)
        · intro hne
          exact absurd hm hne
      · have hm : ev.mongoResult ≠ some true := by
          intro he
          exact hbeq (by rw [he]; rfl)
        refine ⟨?_, fun he => absurd he hm, ?_⟩
        · rintro (hn | hi)
          · rw [hnot] at hn
            exact absurd hn hbeq
          · rw [hinv, if_neg (by simpa using hbeq)] at hi
            exact absurd rfl hi
        · intro _
          refine ⟨by rw [hnot]; exact Bool.of_not_eq_true hbeq ▸ rfl, ?_, ?_⟩
          · rw [hinv, if_neg (by simpa using hbeq)]
          · rw [hcoll]
            exact RatesScrapper.mongoStep_not_true st.mongoColl inp (hmr ▸ hm)
  · -- non-business day: skipped, no collaborator call, untouched collection
    unfold RatesScrapper.runScraper at h
    simp only [Bool.not_eq_true] at hb
    simp only [hb, Bool.not_false, if_true, Option.some_inj] at h
    have hA := congrArg Prod.fst h
    have hB := congrArg Prod.fst (congrArg Prod.snd h)
    simp only at hA hB
    subst hA
    subst hB
    refine ⟨?_, ?_, ?_⟩
    · rintro (hn | hi)
      · cases hn
      · exact absurd rfl hi
    · intro hm
      cases hm
    · intro _
      exact ⟨rfl, rfl, hmc⟩

namespace RatesScrapper

/-- Inputs for the C7 witness: a Tuesday with both quotations present. -/
def c7Inputs : RunInputs :=
  { today := ⟨2025, 12, 30⟩,
    webExchange := some { rate_date := some "2025-12-30", bid := some 27,
                          ask := some 28, avg := some (Rat.divInt 55 2) },
    webGold := some { rate_date := some "2025-12-30", usd := some 100,
                      zwg := some 2700 } }

/-- The state after the C7 witness run. -/
def c7Result : LocalState :=
  { exchangeDates := [⟨2025, 12, 30⟩],
    goldDates := [⟨2025, 12, 30⟩],
    runRecords := [{ run_date := ⟨2025, 12, 30⟩, gold_success := true,
                     exchange_success := true }],
    holidayChecked := [⟨2025, 12, 30⟩],
    mongoColl := [[("Date", BVal.dt ⟨2025, 12, 30⟩ 0), ("ZiG_Bid", BVal.num 27),
                   ("ZiG_Ask", BVal.num 28), ("ZiG_Mid", BVal.num (Rat.divInt 55 2)),
                   ("Gold", BVal.num 27)]] }

/-- The events of the C7 witness run. -/
def c7Events : RunEvents :=
  { extractorInvoked := true, notified := true,
    invalidatedFor := some ⟨2025, 12, 30⟩, mongoResult := some true }

end RatesScrapper

/-- Witness for C7: a completed run whose remote step reported `True` did
notify, did invalidate for the run date, and grew the collection by one. -/
theorem claim_C7_witness :
    RatesScrapper.c7Events.notified = true ∧
    RatesScrapper.c7Events.invalidatedFor = some RatesScrapper.c7Inputs.today ∧
    RatesScrapper.c7Result.mongoColl.length
      = ({} : RatesScrapper.LocalState).mongoColl.length + 1 :=
  (claim_C7_notify_invalidate_gating {} RatesScrapper.c7Inputs RatesScrapper.c7Result
      RatesScrapper.c7Events "completed" (by decide)).2.1 (by decide)
